import Mathlib

/-!
Verification of the recommendation engine of the demo.stvpcet e-commerce
server (src/server/routes/users.js, lines 524-1065).

The JavaScript source is shallowly embedded: JS numbers become `ℚ`
(`-Infinity`, which `Math.max()` returns on an empty spread, becomes `⊥` in
`WithBot ℚ`), MongoDB documents become Lean structures, aggregation
pipelines become explicit list processing, and `try/catch` around a scorer
becomes an `Except` body with a total wrapper.  `Array.prototype.sort` with
a numeric comparator is a stable sort (`stableSort` below); MongoDB
`$group` output order is modelled as first-occurrence order and `$sort` as
the same stable sort, matching the "arbitrary but stable" reading.
-/

namespace Shop

/-- Product identifiers (Mongo ObjectIds) are modelled as naturals. -/
abbrev ProductId := Nat

/-- User identifiers (Mongo ObjectIds) are modelled as naturals. -/
abbrev UserId := Nat

/-- Catalog product: the fields of the Product schema that the
recommendation code reads (category, brand, price, tags, averageRating,
sales, status).  `active = true` models `status === 'active'`. -/
structure Product where
  id : ProductId
  category : String
  brand : String
  price : ℚ
  tags : List String
  averageRating : ℚ
  sales : Nat
  active : Bool
deriving DecidableEq, Repr

/-- Order line item as stored (un-populated): a product reference that may
be missing/malformed (`none`), the unit price at purchase time, and the
quantity. -/
structure RawItem where
  product : Option ProductId
  price : ℚ
  quantity : Nat
deriving DecidableEq, Repr

/-- Stored order: owning user, paid flag, line items. -/
structure RawOrder where
  user : UserId
  isPaid : Bool
  orderItems : List RawItem
deriving DecidableEq, Repr

/-- Read-only data-store snapshot consumed by the scorers. -/
structure Db where
  orders : List RawOrder
  catalog : List Product
deriving DecidableEq, Repr

/-- Order line item after `.populate('orderItems.product')`: the reference
is resolved to the product document, or `none` when the product no longer
exists. -/
structure PopItem where
  product : Option Product
  price : ℚ
  quantity : Nat
deriving DecidableEq, Repr

/-- Populated order as consumed by the preference extractor. -/
structure PopOrder where
  orderItems : List PopItem
deriving DecidableEq, Repr

/-- The slice of the user document the preference extractor reads: the
populated wishlist and the populated cart (a cart entry's product may be
`none`, which the source guards with `if (cartItem.product)`). -/
structure UserProfile where
  wishlist : List Product
  cart : List (Option Product)
deriving DecidableEq, Repr

/-- Source tag attached to a recommendation result item. -/
inductive RecType where
  | collaborative
  | contentBased
deriving DecidableEq, Repr

/-- Recommendation result item: a product projection annotated with a
numeric score and a source tag (`{...product.toObject(), recommendationScore,
recommendationType}`). -/
structure RecItem where
  product : Product
  recommendationScore : ℚ
  recommendationType : RecType
deriving DecidableEq, Repr

/-- The `priceRange` part of the preference snapshot.  `max` lives in
`WithBot ℚ` because `Math.max(...[])` evaluates to `-Infinity` (`⊥`). -/
structure PriceRange where
  avg : ℚ
  max : WithBot ℚ
deriving DecidableEq, Repr

/-- The preference snapshot returned by `getUserPreferences`. -/
structure Preferences where
  categories : List String
  brands : List String
  priceRange : PriceRange
  totalPurchases : Nat
deriving DecidableEq, Repr

/-- Result of `getContentBasedRecommendations`: the cold-start branch
returns plain product documents (no score annotation), the scored branch
returns annotated items.  The source returns arrays of different element
shapes from the two branches. -/
inductive ContentResult where
  | popular (products : List Product)
  | scored (items : List RecItem)
deriving DecidableEq, Repr

/-! ### Stable sorting

`Array.prototype.sort` with a numeric comparator is a stable sort; so is
the model's insertion sort: an element already in the accumulator keeps
its place unless it must come strictly after the newcomer. -/

/-- Insert `r` after every element `s` with `le s r = true` (stable
insertion for a sort that puts `a` before `b` when `le a b`). -/
def stableInsert (le : α → α → Bool) (r : α) : List α → List α
  | [] => [r]
  | s :: t => if le s r then s :: stableInsert le r t else r :: s :: t

/-- Stable sort by the boolean relation `le` (left-to-right insertion). -/
def stableSort (le : α → α → Bool) (l : List α) : List α :=
  l.foldl (fun acc r => stableInsert le r acc) []

/-! ### Keyed accumulators

`categories[k] = (categories[k] || 0) + w` on a JS object, and Mongo
`$group` with `$sum`-style accumulators, both map a key to a running
additive total while keeping first-insertion key order.  `bump` updates
one key in an association list; `accumulate` folds a stream of optional
`(key, weight)` contributions. -/

/-- Update key `k` by adding `w`, appending the key when absent (JS
`m[k] = (m[k] || 0) + w`). -/
def bump [DecidableEq κ] [Add β] : List (κ × β) → κ → β → List (κ × β)
  | [], k, w => [(k, w)]
  | (k0, w0) :: t, k, w =>
    if k0 = k then (k0, w0 + w) :: t else (k0, w0) :: bump t k w

/-- Accumulated total for key `k`, `0` when absent (JS `m[k] || 0`). -/
def alookup [DecidableEq κ] [Zero β] : List (κ × β) → κ → β
  | [], _ => 0
  | (k0, w0) :: t, k => if k0 = k then w0 else alookup t k

/-- Fold a stream of elements, bumping the key/weight that `contrib`
extracts from each element (`none` means the element is skipped, as the
source's `if (item.product)` guards do). -/
def accumulate [DecidableEq κ] [Add β] (contrib : δ → Option (κ × β))
    (l : List δ) (m0 : List (κ × β)) : List (κ × β) :=
  l.foldl
    (fun m d => match contrib d with
      | some kw => bump m kw.1 kw.2
      | none => m)
    m0

/-! ### Deduplication by product identity

`combineRecommendations` removes duplicates with
`combined.reduce((acc, product) => { if (!acc.find(p => p._id === product._id)) acc.push(product); return acc }, [])`. -/

/-- One `reduce` step of the dedupe: push `r` unless its product id is
already present. -/
def dedupeStep (acc : List RecItem) (r : RecItem) : List RecItem :=
  if acc.any (fun p => p.product.id == r.product.id) then acc else acc ++ [r]

/-! ### JavaScript `Math.max` over a list -/

/-- `Math.max(...values)`: `-Infinity` (`⊥`) on the empty spread, the
maximum otherwise. -/
def jsMathMax (l : List ℚ) : WithBot ℚ :=
  l.foldr (fun x acc => max (x : WithBot ℚ) acc) ⊥

/-! ### Preference Extractor (users.js 713-757, `getUserPreferences`)

The source makes three `forEach` passes over the same two weight objects:
paid-order line items (guarded by `if (item.product)`), then wishlist
products, then cart entries (guarded by `if (cartItem.product)`).  Each
pass is an `accumulate` with the pass's contribution function; `totalSpent`
and `itemCount` are the corresponding running sums over the first pass. -/

/-- All line items of the user's paid orders in iteration order
(`userOrders.forEach(order => order.orderItems.forEach(...))`). -/
def popItems (userOrders : List PopOrder) : List PopItem :=
  userOrders.flatMap (fun o => o.orderItems)

/-- Category weight contribution of one purchased line item:
`categories[item.product.category] += item.quantity`, skipped when the
populated product is missing. -/
def purchaseCatContrib (i : PopItem) : Option (String × ℚ) :=
  i.product.map (fun p => (p.category, (i.quantity : ℚ)))

/-- Brand weight contribution of one purchased line item. -/
def purchaseBrandContrib (i : PopItem) : Option (String × ℚ) :=
  i.product.map (fun p => (p.brand, (i.quantity : ℚ)))

/-- Wishlist contribution: `+ 0.5` to the product's category. -/
def wishCatContrib (p : Product) : Option (String × ℚ) :=
  some (p.category, (1 : ℚ) / 2)

/-- Wishlist contribution: `+ 0.5` to the product's brand. -/
def wishBrandContrib (p : Product) : Option (String × ℚ) :=
  some (p.brand, (1 : ℚ) / 2)

/-- Cart contribution: `+ 0.3` to the category, skipped when the cart
entry's populated product is missing. -/
def cartCatContrib (c : Option Product) : Option (String × ℚ) :=
  c.map (fun p => (p.category, (3 : ℚ) / 10))

/-- Cart contribution: `+ 0.3` to the brand. -/
def cartBrandContrib (c : Option Product) : Option (String × ℚ) :=
  c.map (fun p => (p.brand, (3 : ℚ) / 10))

/-- Final category-weight object after the three passes. -/
def categoriesMap (userOrders : List PopOrder) (user : UserProfile) :
    List (String × ℚ) :=
  accumulate cartCatContrib user.cart
    (accumulate wishCatContrib user.wishlist
      (accumulate purchaseCatContrib (popItems userOrders) []))

/-- Final brand-weight object after the three passes. -/
def brandsMap (userOrders : List PopOrder) (user : UserProfile) :
    List (String × ℚ) :=
  accumulate cartBrandContrib user.cart
    (accumulate wishBrandContrib user.wishlist
      (accumulate purchaseBrandContrib (popItems userOrders) []))

/-- Running `totalSpent += item.price * item.quantity` over guarded items. -/
def totalSpent (userOrders : List PopOrder) : ℚ :=
  ((popItems userOrders).filterMap
    (fun i => i.product.map (fun _ => i.price * (i.quantity : ℚ)))).sum

/-- Running `itemCount += item.quantity` over guarded items. -/
def itemCount (userOrders : List PopOrder) : Nat :=
  ((popItems userOrders).filterMap
    (fun i => i.product.map (fun _ => i.quantity))).sum

/-- Descending-by-weight comparator used on the weight objects
(`(a, b) => categories[b] - categories[a]`, i.e. keep `a` before `b` when
`weight b ≤ weight a`); sorting the association pairs and projecting keys
is the model of sorting `Object.keys`. -/
def weightLe (a b : String × ℚ) : Bool := decide (b.2 ≤ a.2)

/-- Embedding of `getUserPreferences(userId, userOrders, user)`.  Note
`priceRange.max` is `Math.max` spread over ALL line-item prices of the
paid orders, with no guard for the empty case and no
`if (item.product)` filter. -/
def getUserPreferences (userId : UserId) (userOrders : List PopOrder)
    (user : UserProfile) : Preferences :=
  { categories := (stableSort weightLe (categoriesMap userOrders user)).map Prod.fst
    brands := (stableSort weightLe (brandsMap userOrders user)).map Prod.fst
    priceRange :=
      { avg := if 0 < itemCount userOrders
          then totalSpent userOrders / (itemCount userOrders : ℚ) else 0
        max := jsMathMax
          (userOrders.flatMap (fun o => o.orderItems.map (fun i => i.price))) }
    totalPurchases := itemCount userOrders }

/-! ### Collaborative Scorer (users.js 760-844,
`getCollaborativeRecommendations`)

The body runs inside `try { ... } catch { return [] }`, so it is embedded
as an `Except Unit` computation with a total wrapper.  The only throw site
reachable in the embedded fragment is `item.product.toString()` on a
missing product reference.  The first aggregation's unused
`commonProducts: { $addToSet: '$orderItems.product' }` accumulator is
omitted; `count: { $sum: 1 }` counts matching documents (orders). -/

/-- Mongo array-field match `'orderItems.product': { $in: ids }`: some
line item's reference equals one of `ids` (a `none` reference matches
nothing). -/
def matchesAny (ids : List ProductId) (o : RawOrder) : Bool :=
  o.orderItems.any (fun i =>
    match i.product with
    | some p => ids.contains p
    | none => false)

/-- Line 764-766: `userOrders.flatMap(order => order.orderItems.map(item =>
item.product.toString()))` over the target's paid orders; `toString()` on a
missing reference throws. -/
def purchasedIds (db : Db) (userId : UserId) : Except Unit (List ProductId) :=
  match (db.orders.filter (fun o => o.user == userId && o.isPaid)).mapM
    (fun o => o.orderItems.mapM (fun i =>
      match i.product with
      | some p => Except.ok p
      | none => Except.error ())) with
  | Except.error e => Except.error e
  | Except.ok idLists => Except.ok idLists.flatten

/-- Descending-by-count comparator of the `$sort: { count: -1 }` stage. -/
def countLe (a b : UserId × Nat) : Bool := decide (b.2 ≤ a.2)

/-- First aggregation (lines 773-796): paid orders sharing a product with
the target, grouped by user with a document count, target excluded,
sorted by count descending, limited to 20. -/
def similarUsers (db : Db) (userId : UserId) (ids : List ProductId) :
    List (UserId × Nat) :=
  let matched := db.orders.filter (fun o => o.isPaid && matchesAny ids o)
  let grouped := accumulate (fun (o : RawOrder) => some (o.user, 1)) matched []
  let others := grouped.filter (fun g => g.1 != userId)
  (stableSort countLe others).take 20

/-- Orders feeding the second aggregation (lines 800-807): paid orders of
the similar users whose line items contain NONE of the target's purchased
products (`$nin` on an array field excludes the whole document when any
element matches). -/
def neighborOrders (db : Db) (userId : UserId) (ids : List ProductId) :
    List RawOrder :=
  let similarUserIds := (similarUsers db userId ids).map Prod.fst
  db.orders.filter (fun o =>
    similarUserIds.contains o.user && o.isPaid && !(matchesAny ids o))

/-- Unwound line items grouped by product reference (lines 808-817):
`score: { $sum: 1 }` counts line items; the `$avg` of unit prices is kept
as the pair (count, price sum), from which the average is the quotient
(the route never reads it downstream). -/
def productGroups (db : Db) (userId : UserId) (ids : List ProductId) :
    List (Option ProductId × (Nat × ℚ)) :=
  let unwound := (neighborOrders db userId ids).flatMap (fun o => o.orderItems)
  accumulate (fun (i : RawItem) => some (i.product, (1, i.price))) unwound []

/-- Descending-by-score comparator of `$sort: { score: -1 }`. -/
def groupLe (a b : Option ProductId × (Nat × ℚ)) : Bool :=
  decide (b.2.1 ≤ a.2.1)

/-- Lines 818-824: groups sorted by score descending, limited to `limit`. -/
def topGroups (db : Db) (userId : UserId) (ids : List ProductId)
    (limit : Nat) : List (Option ProductId × (Nat × ℚ)) :=
  (stableSort groupLe (productGroups db userId ids)).take limit

/-- The `try` body of `getCollaborativeRecommendations` (lines 761-839),
with the propagation of a thrown error written as an explicit `match`. -/
def collabBody (db : Db) (userId : UserId) (limit : Nat) :
    Except Unit (List RecItem) :=
  match purchasedIds db userId with
  | Except.error e => Except.error e
  | Except.ok ids =>
    if ids.isEmpty then Except.ok [] else
    let tg := topGroups db userId ids limit
    let productIds := tg.map Prod.fst
    let products := db.catalog.filter (fun p =>
      productIds.contains (some p.id) && p.active)
    Except.ok (products.map (fun p =>
      { product := p
        recommendationScore :=
          (((tg.find? (fun g => g.1 == some p.id)).map
            (fun g => (g.2.1 : ℚ))).getD 0)
        recommendationType := RecType.collaborative }))

/-- Embedding of `getCollaborativeRecommendations`: the catch clause turns
any internal error into an empty result list. -/
def getCollaborativeRecommendations (db : Db) (userId : UserId)
    (limit : Nat) : List RecItem :=
  match collabBody db userId limit with
  | Except.ok l => l
  | Except.error _ => []

/-! ### Content Scorer (users.js 847-911,
`getContentBasedRecommendations`) -/

/-- JS `Array.prototype.indexOf`, as an `Option` rank (`-1` becomes
`none`). -/
def jsIndexOf (l : List String) (s : String) : Option Nat :=
  match l with
  | [] => none
  | a :: t => if a = s then some 0 else (jsIndexOf t s).map (· + 1)

/-- Mongo sort `{ averageRating: -1, sales: -1 }`: rating descending, then
sales descending. -/
def popLe (a b : Product) : Bool :=
  decide (b.averageRating < a.averageRating
    ∨ (b.averageRating = a.averageRating ∧ b.sales ≤ a.sales))

/-- JS sort comparator `(a, b) => b.recommendationScore -
a.recommendationScore`: score descending. -/
def scoreLe (a b : RecItem) : Bool :=
  decide (b.recommendationScore ≤ a.recommendationScore)

/-- Per-candidate composite score (lines 872-896).  The model's
`averageRating` is always a number, so `product.averageRating || 0` is the
rating itself. -/
def contentScore (userPreferences : Preferences) (p : Product) : ℚ :=
  let categoryWeights := userPreferences.categories.take 3
  let brandWeights := userPreferences.brands.take 3
  let categoryBonus : ℚ :=
    match jsIndexOf categoryWeights p.category with
    | some i => (((3 - i) * 3 : Nat) : ℚ)
    | none => 0
  let brandBonus : ℚ :=
    match jsIndexOf brandWeights p.brand with
    | some i => (((3 - i) * 2 : Nat) : ℚ)
    | none => 0
  let priceBonus : ℚ :=
    if 0 < userPreferences.priceRange.avg then
      max 0 (2 - abs (p.price - userPreferences.priceRange.avg)
        / userPreferences.priceRange.avg)
    else 0
  categoryBonus + brandBonus + priceBonus
    + p.averageRating + min ((p.sales : ℚ) / 100) 2

/-- Embedding of `getContentBasedRecommendations(userPreferences, limit)`.
With no category signal it returns plain popular products (cold start);
otherwise it scores the active products matching a top-3 category or a
top-3 brand and returns them sorted by score descending, truncated. -/
def getContentBasedRecommendations (catalog : List Product)
    (userPreferences : Preferences) (limit : Nat) : ContentResult :=
  if userPreferences.categories.isEmpty then
    ContentResult.popular
      ((stableSort popLe (catalog.filter (fun p => p.active))).take limit)
  else
    let categoryWeights := userPreferences.categories.take 3
    let brandWeights := userPreferences.brands.take 3
    let products := catalog.filter (fun p =>
      p.active && (categoryWeights.contains p.category
        || brandWeights.contains p.brand))
    let scoredProducts := products.map (fun p =>
      { product := p
        recommendationScore := contentScore userPreferences p
        recommendationType := RecType.contentBased : RecItem })
    ContentResult.scored ((stableSort scoreLe scoredProducts).take limit)

/-! ### Fusion and Ranker (users.js 914-929, `combineRecommendations`) -/

/-- Embedding of `combineRecommendations(collaborative, contentBased,
userPreferences, limit)`: concatenate, dedupe by product id keeping the
first occurrence, sort by score descending, truncate (`userPreferences` is
accepted and ignored by the source too). -/
def combineRecommendations (collaborative contentBased : List RecItem)
    (limit : Nat) : List RecItem :=
  let combined := collaborative ++ contentBased
  let uniqueProducts := combined.foldl dedupeStep []
  (stableSort scoreLe uniqueProducts).take limit

/-! ### Seasonal Scorer (users.js 1029-1065)

The source derives `currentMonth` from the wall clock
(`new Date().getMonth() + 1`); the embedding takes the month as an
argument. -/

/-- Season tag table (lines 1033-1041). -/
def seasonalTags (currentMonth : Nat) : List String :=
  if 3 ≤ currentMonth ∧ currentMonth ≤ 5 then
    ["spring", "outdoor", "garden", "fashion"]
  else if 6 ≤ currentMonth ∧ currentMonth ≤ 8 then
    ["summer", "outdoor", "sports", "vacation", "swimwear"]
  else if 9 ≤ currentMonth ∧ currentMonth ≤ 11 then
    ["fall", "autumn", "back-to-school", "warm", "cozy"]
  else
    ["winter", "holiday", "warm", "indoor", "gifts"]

/-- Embedding of `getSeasonalCategories(month)` (lines 1055-1065). -/
def getSeasonalCategories (month : Nat) : List String :=
  if 3 ≤ month ∧ month ≤ 5 then
    ["Home & Garden", "Sports & Outdoors", "Clothing & Fashion"]
  else if 6 ≤ month ∧ month ≤ 8 then
    ["Sports & Outdoors", "Clothing & Fashion", "Electronics"]
  else if 9 ≤ month ∧ month ≤ 11 then
    ["Clothing & Fashion", "Electronics", "Books & Media"]
  else
    ["Electronics", "Toys & Games", "Home & Garden"]

/-- Embedding of `getSeasonalRecommendations(limit)`: active products with
a seasonal tag or a seasonal category, rating descending then sales
descending, limited. -/
def getSeasonalRecommendations (catalog : List Product) (currentMonth : Nat)
    (limit : Nat) : List Product :=
  let tags := seasonalTags currentMonth
  let cats := getSeasonalCategories currentMonth
  (stableSort popLe (catalog.filter (fun p =>
    p.active && (p.tags.any (fun t => tags.contains t)
      || cats.contains p.category)))).take limit


/-! ### Specification-side definitions

These definitions restate scoring and weighting rules in the
specification's own vocabulary (per-key totals as sums of per-element
contributions, counts as `countP`); the claim theorems compare them with
the embedded source functions above. -/

/-- Accumulated category weight as §4.1 states it: purchased quantity per
matching line item, plus 0.5 per matching wishlist product, plus 0.3 per
matching cart product. -/
def specCategoryWeight (userOrders : List PopOrder) (user : UserProfile)
    (c : String) : ℚ :=
  ((popItems userOrders).map (fun i =>
    match i.product with
    | some p => if p.category = c then (i.quantity : ℚ) else 0
    | none => 0)).sum
  + (user.wishlist.map (fun p =>
      if p.category = c then (1 : ℚ) / 2 else 0)).sum
  + (user.cart.map (fun e =>
      match e with
      | some p => if p.category = c then (3 : ℚ) / 10 else 0
      | none => 0)).sum

/-- Accumulated brand weight as §4.1 states it. -/
def specBrandWeight (userOrders : List PopOrder) (user : UserProfile)
    (b : String) : ℚ :=
  ((popItems userOrders).map (fun i =>
    match i.product with
    | some p => if p.brand = b then (i.quantity : ℚ) else 0
    | none => 0)).sum
  + (user.wishlist.map (fun p =>
      if p.brand = b then (1 : ℚ) / 2 else 0)).sum
  + (user.cart.map (fun e =>
      match e with
      | some p => if p.brand = b then (3 : ℚ) / 10 else 0
      | none => 0)).sum

/-- Total spend as §4.1 states it: sum of `unitPrice × quantity` over line
items with a resolved product. -/
def specTotalSpent (userOrders : List PopOrder) : ℚ :=
  ((popItems userOrders).map (fun i =>
    match i.product with
    | some _ => i.price * (i.quantity : ℚ)
    | none => 0)).sum

/-- Total purchased item count as §4.1 states it. -/
def specItemCount (userOrders : List PopOrder) : Nat :=
  ((popItems userOrders).map (fun i =>
    match i.product with
    | some _ => i.quantity
    | none => 0)).sum

/-- Category bonus as the claim states it: `(3 - rank) * 3` for the
0-indexed rank in the top-3 category list, 0 when absent. -/
def specCategoryBonus (userPreferences : Preferences) (p : Product) : ℚ :=
  match jsIndexOf (userPreferences.categories.take 3) p.category with
  | some rank => (((3 - rank) * 3 : Nat) : ℚ)
  | none => 0

/-- Brand bonus as the claim states it: `(3 - rank) * 2`. -/
def specBrandBonus (userPreferences : Preferences) (p : Product) : ℚ :=
  match jsIndexOf (userPreferences.brands.take 3) p.brand with
  | some rank => (((3 - rank) * 2 : Nat) : ℚ)
  | none => 0

/-- Price bonus as the claim states it: `max(0, 2 - |price - avg| / avg)`
when the average price is positive, else 0. -/
def specPriceBonus (userPreferences : Preferences) (p : Product) : ℚ :=
  if 0 < userPreferences.priceRange.avg then
    max 0 (2 - abs (p.price - userPreferences.priceRange.avg)
      / userPreferences.priceRange.avg)
  else 0

/-- Quality bonus as the claim states it: `averageRating + min(sales / 100, 2)`. -/
def specQualityBonus (p : Product) : ℚ :=
  p.averageRating + min ((p.sales : ℚ) / 100) 2

/-- Composite content score as the claim states it. -/
def specContentScore (userPreferences : Preferences) (p : Product) : ℚ :=
  specCategoryBonus userPreferences p + specBrandBonus userPreferences p
    + specPriceBonus userPreferences p + specQualityBonus p

/-- The target's purchased product identifiers read off directly (used to
state the claim-side collaborative pipeline on well-formed data). -/
def claimPurchasedIds (db : Db) (userId : UserId) : List ProductId :=
  (db.orders.filter (fun o => o.user == userId && o.isPaid)).flatMap
    (fun o => o.orderItems.filterMap (fun i => i.product))

/-- Number of DISTINCT products of the target's purchase set that user `u`
also purchased — the neighbor ranking criterion as claim C2 words it. -/
def claimSharedCount (db : Db) (ids : List ProductId) (u : UserId) : Nat :=
  (ids.dedup.filter (fun pid =>
    (db.orders.filter (fun o => o.user == u && o.isPaid)).any
      (fun o => o.orderItems.any (fun i => i.product == some pid)))).length

/-- Collaborative scorer as claim C2 words it (comparison definition for
the refinement claim, not a source translation): neighbors are the top 20
other users by distinct-shared-product count; every product bought in the
neighbors' paid orders except the target's own purchases is scored by the
number of neighbor orders containing it; top N resolved to active
products. -/
def claimCollabRecs (db : Db) (userId : UserId) (limit : Nat) : List RecItem :=
  let ids := claimPurchasedIds db userId
  if ids.isEmpty then [] else
  let users := (db.orders.map (fun o => o.user)).dedup
  let others := users.filter (fun u =>
    u != userId && decide (0 < claimSharedCount db ids u))
  let neighbors := (stableSort
    (fun a b => decide (claimSharedCount db ids b ≤ claimSharedCount db ids a))
    others).take 20
  let nOrders := db.orders.filter (fun o =>
    neighbors.contains o.user && o.isPaid)
  let cands := ((nOrders.flatMap
    (fun o => o.orderItems.filterMap (fun i => i.product))).dedup).filter
      (fun pid => !(ids.contains pid))
  let scored := cands.map (fun pid =>
    (pid, (nOrders.filter (fun o =>
      o.orderItems.any (fun i => i.product == some pid))).length))
  let top := (stableSort (fun a b => decide (b.2 ≤ a.2)) scored).take limit
  let chosen := top.map Prod.fst
  (db.catalog.filter (fun p => chosen.contains p.id && p.active)).map (fun p =>
    { product := p
      recommendationScore :=
        (((top.find? (fun g => g.1 == p.id)).map (fun g => (g.2 : ℚ))).getD 0)
      recommendationType := RecType.collaborative })

/-- Orders with the line items whose populated product reference is
missing removed (what "skipping the offending item" would mean for the
preference extractor). -/
def dropUnresolved (userOrders : List PopOrder) : List PopOrder :=
  userOrders.map (fun o => { orderItems := o.orderItems.filter (fun i => i.product.isSome) })

/-- Conclusion of the amended claim C2, as one reusable proposition: the
neighbor stage keeps at most 20 other users, each carrying its matching
paid-order count, in descending count order; the group stage keeps at most
N product groups in descending line-item-count order, each count being the
number of eligible unwound line items referencing the product; and every
returned item is an active catalog product outside the target's purchase
set carrying that count as its score. -/
def collabAmendedSpec (db : Db) (userId : UserId) (limit : Nat)
    (ids : List ProductId) : Prop :=
  (similarUsers db userId ids).length ≤ 20
  ∧ (∀ un ∈ similarUsers db userId ids, un.1 ≠ userId ∧
      un.2 = (db.orders.filter (fun o => o.isPaid && matchesAny ids o)).countP
        (fun o => o.user == un.1))
  ∧ (similarUsers db userId ids).Pairwise (fun a b => b.2 ≤ a.2)
  ∧ (topGroups db userId ids limit).length ≤ limit
  ∧ (topGroups db userId ids limit).Pairwise (fun a b => b.2.1 ≤ a.2.1)
  ∧ (∀ g ∈ topGroups db userId ids limit,
      g.2.1 = ((neighborOrders db userId ids).flatMap (fun o => o.orderItems)).countP
        (fun i => i.product == g.1))
  ∧ (∀ r ∈ getCollaborativeRecommendations db userId limit,
      r.product ∈ db.catalog ∧ r.product.active = true
      ∧ r.product.id ∉ ids
      ∧ r.recommendationType = RecType.collaborative
      ∧ r.recommendationScore
          = (((neighborOrders db userId ids).flatMap (fun o => o.orderItems)).countP
              (fun i => i.product == some r.product.id) : ℚ))

/-! ### Concrete inputs for witnesses and counterexamples -/

/-- An active Electronics product used by several witnesses. -/
def wProdA : Product := ⟨1, "Electronics", "Acme", 10, [], 4, 50, true⟩

/-- An active Electronics product used as a collaborative recommendation
target. -/
def wProdC : Product := ⟨3, "Electronics", "Bolt", 7, [], 4, 0, true⟩

/-- An active seasonal product (summer tag, sports category). -/
def wProdS : Product := ⟨9, "Sports & Outdoors", "Zed", 3, ["summer"], 5, 10, true⟩

/-- A preference snapshot with one category and one brand signal. -/
def wPrefs : Preferences := ⟨["Electronics"], ["Acme"], ⟨10, ((10 : ℚ) : WithBot ℚ)⟩, 2⟩

/-- The cold-start preference snapshot. -/
def wPrefsEmpty : Preferences := ⟨[], [], ⟨0, ⊥⟩, 0⟩

/-- C2 counterexample data: the target (user 0) bought product 1; user 1
has a single paid order containing both product 1 and product 3. -/
def cex2Db : Db :=
  { orders := [⟨0, true, [⟨some 1, 5, 1⟩]⟩,
               ⟨1, true, [⟨some 1, 5, 1⟩, ⟨some 3, 7, 1⟩]⟩]
    catalog := [wProdC] }

/-- C9 counterexample data, well-formed variant: user 1 shares product 1
with the target through one order and bought product 3 in another. -/
def cex9DbGood : Db :=
  { orders := [⟨0, true, [⟨some 1, 5, 1⟩]⟩,
               ⟨1, true, [⟨some 1, 5, 1⟩]⟩,
               ⟨1, true, [⟨some 3, 7, 1⟩]⟩]
    catalog := [wProdC] }

/-- C9 counterexample data: same as `cex9DbGood` except the target's order
additionally carries one malformed (missing) product reference. -/
def cex9DbBad : Db :=
  { orders := [⟨0, true, [⟨some 1, 5, 1⟩, ⟨none, 9, 1⟩]⟩,
               ⟨1, true, [⟨some 1, 5, 1⟩]⟩,
               ⟨1, true, [⟨some 3, 7, 1⟩]⟩]
    catalog := [wProdC] }

/-- Witness data for the amended C2: same shape as `cex9DbGood`. -/
def w2Db : Db :=
  { orders := [⟨0, true, [⟨some 1, 5, 1⟩]⟩,
               ⟨1, true, [⟨some 1, 5, 1⟩]⟩,
               ⟨1, true, [⟨some 3, 7, 1⟩]⟩]
    catalog := [wProdC] }

/-- Witness data for C7: the target's only paid order has no line items. -/
def w7Db : Db := { orders := [⟨0, true, []⟩], catalog := [wProdC] }

/-- Witness data for C10: a malformed reference in the target's paid order
makes the collaborative body throw. -/
def w10Db : Db :=
  { orders := [⟨0, true, [⟨some 1, 5, 1⟩, ⟨none, 9, 1⟩]⟩,
               ⟨1, true, [⟨some 1, 5, 1⟩]⟩,
               ⟨1, true, [⟨some 3, 7, 1⟩]⟩]
    catalog := [wProdC] }

/-- Witness order history for C4/C9: one paid order with a resolved item
and (for C9) one unresolved item. -/
def w9Orders : List PopOrder := [⟨[⟨some wProdA, 10, 2⟩, ⟨none, 9, 1⟩]⟩]

/-- Witness user profile: one wishlist product, one resolved and one
unresolved cart entry. -/
def w9User : UserProfile := ⟨[wProdC], [some wProdA, none]⟩

/-- Witness order history for C4: one paid order with one resolved item. -/
def w4Orders : List PopOrder := [⟨[⟨some wProdA, 10, 2⟩]⟩]

/-- Witness user profile for C4. -/
def w4User : UserProfile := ⟨[wProdC], [some wProdA]⟩

/-- Witness collaborative input for C3: product 3 with score 3. -/
def w3Collab : List RecItem := [⟨wProdC, 3, RecType.collaborative⟩]

/-- Witness content input for C3: product 3 again (higher score) and
product 1. -/
def w3Content : List RecItem :=
  [⟨wProdC, 9, RecType.contentBased⟩, ⟨wProdA, 5, RecType.contentBased⟩]

/-! ### Generic list lemmas used by all the claims below. -/

theorem stableInsert_perm (le : α → α → Bool) (r : α) (l : List α) :
    List.Perm (stableInsert le r l) (r :: l) := by
  induction l with
  | nil => simp [stableInsert]
  | cons s t ih =>
    by_cases h : le s r = true
    · simp only [stableInsert, h, if_true]
      exact (ih.cons s).trans (List.Perm.swap r s t)
    · simp only [stableInsert, h, if_false]
      exact List.Perm.refl _

theorem stableSort_go_perm (le : α → α → Bool) (l acc : List α) :
    List.Perm (l.foldl (fun acc r => stableInsert le r acc) acc) (acc ++ l) := by
  induction l generalizing acc with
  | nil => simp
  | cons r t ih =>
    have h1 : List.Perm ((stableInsert le r acc) ++ t) ((r :: acc) ++ t) :=
      (stableInsert_perm le r acc).append_right t
    have h2 : List.Perm (acc ++ r :: t) (r :: (acc ++ t)) := List.perm_middle
    exact ((ih (stableInsert le r acc)).trans (h1.trans (List.Perm.refl _))).trans
      ((List.Perm.refl _).trans h2.symm)

theorem stableSort_perm (le : α → α → Bool) (l : List α) :
    List.Perm (stableSort le l) l := by
  simpa using stableSort_go_perm le l []

theorem mem_stableInsert (le : α → α → Bool) (r x : α) (l : List α)
    (h : x ∈ stableInsert le r l) : x = r ∨ x ∈ l := by
  have := (stableInsert_perm le r l).mem_iff.mp h
  simpa using this

theorem stableInsert_pairwise (le : α → α → Bool)
    (htot : ∀ a b, le a b = true ∨ le b a = true)
    (htrans : ∀ a b c, le a b = true → le b c = true → le a c = true)
    (r : α) (l : List α) (hl : l.Pairwise fun a b => le a b = true) :
    (stableInsert le r l).Pairwise (fun a b => le a b = true) := by
  induction l with
  | nil => simp [stableInsert]
  | cons s t ih =>
    rcases List.pairwise_cons.mp hl with ⟨hs, ht⟩
    by_cases h : le s r = true
    · simp only [stableInsert, h, if_true]
      refine List.pairwise_cons.mpr ⟨?_, ih ht⟩
      intro x hx
      rcases mem_stableInsert le r x t hx with rfl | hx
      · exact h
      · exact hs x hx
    · simp only [stableInsert, h, if_false]
      have hrs : le r s = true := by
        rcases htot r s with h1 | h1
        · exact h1
        · exact absurd h1 (by simpa using h)
      refine List.pairwise_cons.mpr ⟨?_, hl⟩
      intro x hx
      rcases List.mem_cons.mp hx with rfl | hx
      · exact hrs
      · exact htrans r s x hrs (hs x hx)

theorem stableSort_go_pairwise (le : α → α → Bool)
    (htot : ∀ a b, le a b = true ∨ le b a = true)
    (htrans : ∀ a b c, le a b = true → le b c = true → le a c = true)
    (l acc : List α) (hacc : acc.Pairwise fun a b => le a b = true) :
    (l.foldl (fun acc r => stableInsert le r acc) acc).Pairwise
      (fun a b => le a b = true) := by
  induction l generalizing acc with
  | nil => simpa using hacc
  | cons r t ih => exact ih _ (stableInsert_pairwise le htot htrans r acc hacc)

theorem stableSort_pairwise (le : α → α → Bool)
    (htot : ∀ a b, le a b = true ∨ le b a = true)
    (htrans : ∀ a b c, le a b = true → le b c = true → le a c = true)
    (l : List α) :
    (stableSort le l).Pairwise (fun a b => le a b = true) :=
  stableSort_go_pairwise le htot htrans l [] (by simp)

theorem alookup_bump [DecidableEq κ] [AddMonoid β]
    (m : List (κ × β)) (k k2 : κ) (w : β) :
    alookup (bump m k w) k2 = alookup m k2 + (if k2 = k then w else 0) := by
  induction m with
  | nil =>
    by_cases h : k2 = k
    · subst h; simp [bump, alookup]
    · have h2 : ¬ k = k2 := fun hh => h hh.symm
      simp [bump, alookup, h, h2]
  | cons p t ih =>
    obtain ⟨k0, w0⟩ := p
    by_cases h0 : k0 = k
    · subst h0
      by_cases h2 : k0 = k2
      · subst h2; simp [bump, alookup]
      · have h3 : ¬ k2 = k0 := fun hh => h2 hh.symm
        simp [bump, alookup, h2, h3]
    · by_cases h2 : k0 = k2
      · subst h2
        simp [bump, alookup, h0]
      · simp [bump, alookup, h0, h2, ih]

theorem alookup_accumulate [DecidableEq κ] [AddMonoid β]
    (contrib : δ → Option (κ × β)) (l : List δ) (m0 : List (κ × β)) (k : κ) :
    alookup (accumulate contrib l m0) k
      = alookup m0 k
        + (l.map (fun d => match contrib d with
            | some kw => if kw.1 = k then kw.2 else 0
            | none => 0)).sum := by
  induction l generalizing m0 with
  | nil => simp [accumulate]
  | cons d t ih =>
    cases hc : contrib d with
    | none =>
      have step : accumulate contrib (d :: t) m0 = accumulate contrib t m0 := by
        simp [accumulate, hc]
      rw [step, ih]
      simp [hc]
    | some kw =>
      obtain ⟨k1, w1⟩ := kw
      have step :
          accumulate contrib (d :: t) m0
            = accumulate contrib t (bump m0 k1 w1) := by
        simp [accumulate, hc]
      rw [step, ih, alookup_bump]
      by_cases h : k1 = k
      · subst h; simp [hc, add_assoc]
      · have h2 : ¬ k = k1 := fun hh => h hh.symm
        simp [hc, h, h2]

theorem mem_fst_bump [DecidableEq κ] [Add β] (m : List (κ × β)) (k k2 : κ) (w : β) :
    k2 ∈ (bump m k w).map Prod.fst ↔ k2 ∈ m.map Prod.fst ∨ k2 = k := by
  induction m with
  | nil => simp [bump, eq_comm]
  | cons p t ih =>
    obtain ⟨k0, w0⟩ := p
    by_cases h0 : k0 = k
    · subst h0
      simp only [bump, if_true]
      constructor
      · intro h; simp at h ⊢; tauto
      · intro h; simp at h ⊢; tauto
    · simp only [bump, h0, if_false, List.map_cons, List.mem_cons, ih]
      tauto

theorem nodup_fst_bump [DecidableEq κ] [Add β] (m : List (κ × β)) (k : κ) (w : β)
    (h : (m.map Prod.fst).Nodup) : ((bump m k w).map Prod.fst).Nodup := by
  induction m with
  | nil => simp [bump]
  | cons p t ih =>
    obtain ⟨k0, w0⟩ := p
    have h1 := h
    rw [List.map_cons] at h1
    rcases List.nodup_cons.mp h1 with ⟨hk0, ht⟩
    by_cases h0 : k0 = k
    · subst h0
      simpa [bump] using h
    · simp only [bump, h0, if_false, List.map_cons]
      refine List.nodup_cons.mpr ⟨?_, ih ht⟩
      intro hmem
      rcases (mem_fst_bump t k k0 w).mp hmem with hmem | hmem
      · exact hk0 hmem
      · exact h0 hmem

theorem nodup_fst_accumulate [DecidableEq κ] [Add β]
    (contrib : δ → Option (κ × β)) (l : List δ) (m0 : List (κ × β))
    (h : (m0.map Prod.fst).Nodup) :
    ((accumulate contrib l m0).map Prod.fst).Nodup := by
  induction l generalizing m0 with
  | nil => simpa [accumulate] using h
  | cons d t ih =>
    cases hc : contrib d with
    | none =>
      have step : accumulate contrib (d :: t) m0 = accumulate contrib t m0 := by
        simp [accumulate, hc]
      rw [step]; exact ih m0 h
    | some kw =>
      have step :
          accumulate contrib (d :: t) m0
            = accumulate contrib t (bump m0 kw.1 kw.2) := by
        simp [accumulate, hc]
      rw [step]; exact ih _ (nodup_fst_bump m0 kw.1 kw.2 h)

theorem mem_fst_accumulate [DecidableEq κ] [Add β]
    (contrib : δ → Option (κ × β)) (l : List δ) (m0 : List (κ × β)) (k : κ) :
    k ∈ (accumulate contrib l m0).map Prod.fst
      ↔ k ∈ m0.map Prod.fst ∨ k ∈ (l.filterMap contrib).map Prod.fst := by
  induction l generalizing m0 with
  | nil => simp [accumulate]
  | cons d t ih =>
    cases hc : contrib d with
    | none =>
      have step : accumulate contrib (d :: t) m0 = accumulate contrib t m0 := by
        simp [accumulate, hc]
      rw [step]; simp [hc, ih]
    | some kw =>
      have step :
          accumulate contrib (d :: t) m0
            = accumulate contrib t (bump m0 kw.1 kw.2) := by
        simp [accumulate, hc]
      rw [step]
      simp only [ih, mem_fst_bump, List.filterMap_cons, hc, List.map_cons,
        List.mem_cons]
      tauto

theorem alookup_of_mem [DecidableEq κ] [Zero β] (m : List (κ × β)) (k : κ) (w : β)
    (h : (k, w) ∈ m) (hn : (m.map Prod.fst).Nodup) : alookup m k = w := by
  induction m with
  | nil => simp at h
  | cons p t ih =>
    obtain ⟨k0, w0⟩ := p
    have hn1 := hn
    rw [List.map_cons] at hn1
    rcases List.nodup_cons.mp hn1 with ⟨hk0, ht⟩
    rcases List.mem_cons.mp h with h | h
    · have h1 : k = k0 := congrArg Prod.fst h
      have h2 : w = w0 := congrArg Prod.snd h
      subst h1; subst h2
      simp [alookup]
    · have hk : ¬ k0 = k := by
        intro hh
        refine hk0 ?_
        rw [hh]
        exact List.mem_map.mpr ⟨(k, w), h, rfl⟩
      simp [alookup, hk, ih h ht]

theorem mem_dedupe_foldl (l acc : List RecItem) (x : RecItem)
    (h : x ∈ l.foldl dedupeStep acc) : x ∈ acc ∨ x ∈ l := by
  induction l generalizing acc with
  | nil => simp at h ⊢; exact h
  | cons r t ih =>
    rw [List.foldl_cons] at h
    rcases ih (dedupeStep acc r) h with h1 | h1
    · unfold dedupeStep at h1
      by_cases hc : acc.any (fun p => p.product.id == r.product.id) = true
      · rw [if_pos hc] at h1; exact Or.inl h1
      · rw [if_neg hc] at h1
        rcases List.mem_append.mp h1 with h2 | h2
        · exact Or.inl h2
        · simp at h2; subst h2; simp
    · simp [h1]

theorem nodup_ids_dedupe_foldl (l acc : List RecItem)
    (h : (acc.map (fun r => r.product.id)).Nodup) :
    (((l.foldl dedupeStep acc)).map (fun r => r.product.id)).Nodup := by
  induction l generalizing acc with
  | nil => simpa using h
  | cons r t ih =>
    rw [List.foldl_cons]
    refine ih (dedupeStep acc r) ?_
    unfold dedupeStep
    by_cases hc : acc.any (fun p => p.product.id == r.product.id) = true
    · rw [if_pos hc]; exact h
    · rw [if_neg hc]
      rw [List.map_append]
      simp only [List.map_cons, List.map_nil]
      rw [List.nodup_append]
      refine ⟨h, List.nodup_singleton _, ?_⟩
      intro a ha hb
      simp only [List.mem_singleton] at hb
      subst hb
      rcases List.mem_map.mp ha with ⟨y, hy, hid⟩
      refine hc ?_
      refine List.any_eq_true.mpr ⟨y, hy, ?_⟩
      simpa using hid

theorem find_of_mem_nodup_ids (acc : List RecItem) (x : RecItem)
    (h : x ∈ acc) (hn : (acc.map (fun r => r.product.id)).Nodup) :
    acc.find? (fun y => y.product.id == x.product.id) = some x := by
  induction acc with
  | nil => simp at h
  | cons a t ih =>
    have hn1 := hn
    rw [List.map_cons] at hn1
    rcases List.nodup_cons.mp hn1 with ⟨ha, ht⟩
    rcases List.mem_cons.mp h with h | h
    · subst h
      simp [List.find?]
    · have hne : ¬ (a.product.id == x.product.id) = true := by
        intro hh
        refine ha ?_
        have : a.product.id = x.product.id := by simpa using hh
        rw [this]
        exact List.mem_map.mpr ⟨x, h, rfl⟩
      rw [List.find?]
      rw [Bool.not_eq_true] at hne
      rw [hne]
      exact ih h ht

theorem find_dedupe_foldl (l acc : List RecItem) (x : RecItem)
    (hx : x ∈ l.foldl dedupeStep acc)
    (hn : (acc.map (fun r => r.product.id)).Nodup) :
    (acc ++ l).find? (fun y => y.product.id == x.product.id) = some x := by
  induction l generalizing acc with
  | nil =>
    simp only [List.foldl_nil] at hx
    simpa using find_of_mem_nodup_ids acc x hx hn
  | cons r t ih =>
    rw [List.foldl_cons] at hx
    by_cases hc : acc.any (fun p => p.product.id == r.product.id) = true
    · have hstep : dedupeStep acc r = acc := by unfold dedupeStep; rw [if_pos hc]
      rw [hstep] at hx
      have hrec := ih acc hx hn
      rcases List.any_eq_true.mp hc with ⟨y, hy, hyr⟩
      rw [List.find?_append] at hrec ⊢
      cases hfa : acc.find? (fun z => z.product.id == x.product.id) with
      | some z =>
        rw [hfa] at hrec
        simp only [Option.or] at hrec ⊢
        exact hrec
      | none =>
        rw [hfa] at hrec
        simp only [Option.or] at hrec ⊢
        have hxr : ¬ (r.product.id == x.product.id) = true := by
          intro hh
          have h1 : r.product.id = x.product.id := by simpa using hh
          have h2 : (y.product.id == x.product.id) = true := by
            have : y.product.id = r.product.id := by simpa using hyr
            simp [this, h1]
          have hsome : (acc.find? (fun z => z.product.id == x.product.id)).isSome :=
            List.find?_isSome.mpr ⟨y, hy, h2⟩
          rw [hfa] at hsome
          simp at hsome
        rw [List.find?]
        rw [Bool.not_eq_true] at hxr
        rw [hxr]
        exact hrec
    · have hstep : dedupeStep acc r = acc ++ [r] := by
        unfold dedupeStep; rw [if_neg hc]
      rw [hstep] at hx
      have hn2 : ((acc ++ [r]).map (fun q => q.product.id)).Nodup := by
        rw [List.map_append]
        rw [List.nodup_append]
        refine ⟨hn, by simp, ?_⟩
        intro a ha hb
        simp only [List.map_cons, List.map_nil, List.mem_singleton] at hb
        subst hb
        rcases List.mem_map.mp ha with ⟨y, hy, hid⟩
        refine hc ?_
        refine List.any_eq_true.mpr ⟨y, hy, ?_⟩
        simpa using hid
      have hrec := ih (acc ++ [r]) hx hn2
      rw [List.append_assoc] at hrec
      simpa using hrec

/-! ### Comparator facts and small list lemmas -/

theorem descBy_total {γ : Type} [LinearOrder γ] (f : α → γ) (a b : α) :
    decide (f b ≤ f a) = true ∨ decide (f a ≤ f b) = true := by
  rcases le_total (f b) (f a) with h | h
  · exact Or.inl (decide_eq_true h)
  · exact Or.inr (decide_eq_true h)

theorem descBy_trans {γ : Type} [LinearOrder γ] (f : α → γ) (a b c : α)
    (h1 : decide (f b ≤ f a) = true) (h2 : decide (f c ≤ f b) = true) :
    decide (f c ≤ f a) = true :=
  decide_eq_true (le_trans (of_decide_eq_true h2) (of_decide_eq_true h1))

theorem popLe_total (a b : Product) : popLe a b = true ∨ popLe b a = true := by
  unfold popLe
  rcases lt_trichotomy a.averageRating b.averageRating with h | h | h
  · exact Or.inr (decide_eq_true (Or.inl h))
  · rcases Nat.le_total b.sales a.sales with h2 | h2
    · exact Or.inl (decide_eq_true (Or.inr ⟨h.symm, h2⟩))
    · exact Or.inr (decide_eq_true (Or.inr ⟨h, h2⟩))
  · exact Or.inl (decide_eq_true (Or.inl h))

theorem popLe_trans (a b c : Product) (h1 : popLe a b = true)
    (h2 : popLe b c = true) : popLe a c = true := by
  unfold popLe at h1 h2 ⊢
  have g1 := of_decide_eq_true h1
  have g2 := of_decide_eq_true h2
  refine decide_eq_true ?_
  rcases g1 with g1 | ⟨g1e, g1s⟩
  · rcases g2 with g2 | ⟨g2e, g2s⟩
    · exact Or.inl (lt_trans g2 g1)
    · exact Or.inl (g2e ▸ g1)
  · rcases g2 with g2 | ⟨g2e, g2s⟩
    · exact Or.inl (g1e ▸ g2)
    · exact Or.inr ⟨g2e.trans g1e, le_trans g2s g1s⟩

theorem sum_map_ite_one {δ : Type} (p : δ → Prop) [DecidablePred p]
    (l : List δ) :
    (l.map (fun d => if p d then (1 : ℕ) else 0)).sum
      = l.countP (fun d => decide (p d)) := by
  induction l with
  | nil => rfl
  | cons d t ih =>
    by_cases h : p d <;>
      simp [List.countP_cons, h, ih, Nat.add_comm]

theorem fst_list_sum {β γ : Type} [AddMonoid β] [AddMonoid γ]
    (l : List (β × γ)) : l.sum.1 = (l.map Prod.fst).sum := by
  induction l with
  | nil => rfl
  | cons a t ih =>
    rw [List.sum_cons, List.map_cons, List.sum_cons, Prod.fst_add a t.sum, ih]

theorem sum_filterMap_getD {δ β : Type} [AddMonoid β] (f : δ → Option β)
    (l : List δ) :
    (l.filterMap f).sum = (l.map (fun d => (f d).getD 0)).sum := by
  induction l with
  | nil => rfl
  | cons d t ih => cases h : f d <;> simp [List.filterMap_cons, h, ih]

theorem beq_eq_decide {γ : Type} [BEq γ] [LawfulBEq γ] [DecidableEq γ]
    (a b : γ) : (a == b) = decide (a = b) := by
  by_cases h : a = b <;> simp [h]

theorem find_key_of_mem_nodup {κ β : Type} [BEq κ] [LawfulBEq κ]
    (l : List (κ × β)) (k : κ) (w : β) (h : (k, w) ∈ l)
    (hn : (l.map Prod.fst).Nodup) :
    l.find? (fun g => g.1 == k) = some (k, w) := by
  induction l with
  | nil => simp at h
  | cons a t ih =>
    obtain ⟨k0, w0⟩ := a
    have hn1 := hn
    rw [List.map_cons] at hn1
    rcases List.nodup_cons.mp hn1 with ⟨hk0, ht⟩
    rcases List.mem_cons.mp h with h | h
    · have h1 : k = k0 := congrArg Prod.fst h
      have h2 : w = w0 := congrArg Prod.snd h
      subst h1; subst h2
      simp [List.find?]
    · have hne : ¬ ((k0, w0).1 == k) = true := by
        intro hh
        have hkk : k0 = k := by simpa using hh
        refine hk0 ?_
        rw [hkk]
        exact List.mem_map.mpr ⟨(k, w), h, rfl⟩
      rw [List.find?]
      rw [Bool.not_eq_true] at hne
      rw [hne]
      exact ih h ht

theorem mem_take_sort {le : α → α → Bool} {l : List α} {n : Nat} {x : α}
    (h : x ∈ (stableSort le l).take n) : x ∈ l :=
  (stableSort_perm le l).mem_iff.mp (List.mem_of_mem_take h)

theorem pairwise_take_sort (le : α → α → Bool)
    (htot : ∀ a b, le a b = true ∨ le b a = true)
    (htrans : ∀ a b c, le a b = true → le b c = true → le a c = true)
    (l : List α) (n : Nat) :
    ((stableSort le l).take n).Pairwise (fun a b => le a b = true) :=
  (stableSort_pairwise le htot htrans l).sublist (List.take_sublist n _)

theorem take_ne_nil_of_pos {l : List α} {n : Nat} (hl : l ≠ []) (hn : 0 < n) :
    l.take n ≠ [] := by
  cases l with
  | nil => exact absurd rfl hl
  | cons a t =>
    cases n with
    | zero => omega
    | succ m => simp

theorem mapM_ok_nil_of_items_nil (L : List RawOrder)
    (h : ∀ o ∈ L, o.orderItems = []) :
    (L.mapM (fun o => o.orderItems.mapM (fun i =>
      match i.product with
      | some p => Except.ok p
      | none => Except.error ())))
      = Except.ok (L.map fun _ => ([] : List ProductId)) := by
  induction L with
  | nil => rfl
  | cons o t ih =>
    have ho : o.orderItems = [] := h o (List.mem_cons_self o t)
    rw [List.mapM_cons, ho]
    rw [ih (fun x hx => h x (List.mem_cons_of_mem o hx))]
    rfl

/-! ### Claim C5 -/

/-- C5: the specification requires an explicit guard so that a user with
no paid orders has an absent maximum price; the code instead evaluates
`Math.max(...[])`, so the snapshot's maximum is the `-Infinity` sentinel
(`⊥`).  This theorem exhibits the sentinel, confirming the divergence the
claim rules out. -/
theorem C5_price_max_no_guard (userId : UserId) (user : UserProfile) :
    (getUserPreferences userId [] user).priceRange.max = ⊥ := rfl

/-! ### Claim C7 -/

/-- C7: when the target user's paid orders contain no line items at all,
the purchased-product basis is empty, the collaborative body returns an
empty result without throwing, and the scorer returns the empty list. -/
theorem C7_collaborative_empty_basis (db : Db) (userId : UserId) (limit : Nat)
    (h : (db.orders.filter (fun o => o.user == userId && o.isPaid)).flatMap
      (fun o => o.orderItems) = []) :
    collabBody db userId limit = Except.ok []
      ∧ getCollaborativeRecommendations db userId limit = [] := by
  have horders : ∀ o ∈ db.orders.filter (fun o => o.user == userId && o.isPaid),
      o.orderItems = [] := by
    intro o ho
    exact List.flatMap_eq_nil_iff.mp h o ho
  have hmm := mapM_ok_nil_of_items_nil _ horders
  have hpids : purchasedIds db userId = Except.ok [] := by
    unfold purchasedIds
    rw [hmm]
    have hfl : ((db.orders.filter (fun o => o.user == userId && o.isPaid)).map
        (fun _ => ([] : List ProductId))).flatten = [] := by
      rw [List.flatten_eq_nil_iff]
      intro x hx
      rcases List.mem_map.mp hx with ⟨o, _, rfl⟩
      rfl
    exact congrArg Except.ok hfl
  have hbody : collabBody db userId limit = Except.ok [] := by
    unfold collabBody
    rw [hpids]
    rfl
  refine ⟨hbody, ?_⟩
  unfold getCollaborativeRecommendations
  rw [hbody]

/-- C7 witness: a target whose only paid order has no line items. -/
theorem C7_collaborative_empty_basis_witness :
    ((w7Db.orders.filter (fun o => o.user == 0 && o.isPaid)).flatMap
      (fun o => o.orderItems) = [])
    ∧ (collabBody w7Db 0 5 = Except.ok []
      ∧ getCollaborativeRecommendations w7Db 0 5 = []) :=
  ⟨by decide, C7_collaborative_empty_basis w7Db 0 5 (by decide)⟩

/-! ### Claim C8 -/

/-- C8: in July the seasonal scorer returns only active products carrying
a summer tag or a summer category, in rating-then-sales descending order,
at most `limit` of them. -/
theorem C8_seasonal_july (catalog : List Product) (limit : Nat) :
    (∀ p ∈ getSeasonalRecommendations catalog 7 limit,
      p ∈ catalog ∧ p.active = true
      ∧ ((∃ t ∈ p.tags,
            t ∈ (["summer", "outdoor", "sports", "vacation", "swimwear"] : List String))
        ∨ p.category ∈ (["Sports & Outdoors", "Clothing & Fashion", "Electronics"] : List String)))
    ∧ (getSeasonalRecommendations catalog 7 limit).Pairwise
      (fun a b => b.averageRating < a.averageRating
        ∨ (b.averageRating = a.averageRating ∧ b.sales ≤ a.sales))
    ∧ (getSeasonalRecommendations catalog 7 limit).length ≤ limit := by
  have htags : seasonalTags 7
      = ["summer", "outdoor", "sports", "vacation", "swimwear"] := by
    norm_num [seasonalTags]
  have hcats : getSeasonalCategories 7
      = ["Sports & Outdoors", "Clothing & Fashion", "Electronics"] := by
    norm_num [getSeasonalCategories]
  refine ⟨?_, ?_, ?_⟩
  · intro p hp
    unfold getSeasonalRecommendations at hp
    rw [htags, hcats] at hp
    have hmem := mem_take_sort hp
    rcases List.mem_filter.mp hmem with ⟨hcat, hpred⟩
    simp only [Bool.and_eq_true, Bool.or_eq_true] at hpred
    rcases hpred with ⟨hact, hm | hm⟩
    · refine ⟨hcat, hact, ?_⟩
      rcases List.any_eq_true.mp hm with ⟨t, ht, htin⟩
      exact Or.inl ⟨t, ht, List.elem_iff.mp htin⟩
    · exact ⟨hcat, hact, Or.inr (List.elem_iff.mp hm)⟩
  · have hpw := pairwise_take_sort popLe popLe_total popLe_trans
      (catalog.filter (fun p =>
        p.active && (p.tags.any (fun t => (seasonalTags 7).contains t)
          || (getSeasonalCategories 7).contains p.category))) limit
    unfold getSeasonalRecommendations
    exact hpw.imp (fun h => of_decide_eq_true h)
  · unfold getSeasonalRecommendations
    exact List.length_take_le limit _

/-- C8 witness: one matching product in July. -/
theorem C8_seasonal_july_witness :
    (∀ p ∈ getSeasonalRecommendations [wProdS] 7 5,
      p ∈ [wProdS] ∧ p.active = true
      ∧ ((∃ t ∈ p.tags,
            t ∈ (["summer", "outdoor", "sports", "vacation", "swimwear"] : List String))
        ∨ p.category ∈ (["Sports & Outdoors", "Clothing & Fashion", "Electronics"] : List String)))
    ∧ (getSeasonalRecommendations [wProdS] 7 5).Pairwise
      (fun a b => b.averageRating < a.averageRating
        ∨ (b.averageRating = a.averageRating ∧ b.sales ≤ a.sales))
    ∧ (getSeasonalRecommendations [wProdS] 7 5).length ≤ 5 :=
  C8_seasonal_july [wProdS] 5

/-! ### Claim C3 -/

/-- C3: the fusion output has length at most `limit`, has pairwise
distinct product ids, draws every item from one of the two input lists,
keeps the first collaborative occurrence of a product that the
collaborative list contains, and is sorted by score descending. -/
theorem C3_fusion_ranker (collaborative contentBased : List RecItem)
    (limit : Nat) :
    (combineRecommendations collaborative contentBased limit).length ≤ limit
    ∧ ((combineRecommendations collaborative contentBased limit).map
        (fun r => r.product.id)).Nodup
    ∧ (∀ r ∈ combineRecommendations collaborative contentBased limit,
        r ∈ collaborative ∨ r ∈ contentBased)
    ∧ (∀ r ∈ combineRecommendations collaborative contentBased limit,
        ∀ c : RecItem,
        collaborative.find? (fun y => y.product.id == r.product.id) = some c →
        r = c)
    ∧ (combineRecommendations collaborative contentBased limit).Pairwise
        (fun a b => b.recommendationScore ≤ a.recommendationScore) := by
  unfold combineRecommendations
  refine ⟨List.length_take_le limit _, ?_, ?_, ?_, ?_⟩
  · have hu : (((collaborative ++ contentBased).foldl dedupeStep []).map
        (fun r => r.product.id)).Nodup :=
      nodup_ids_dedupe_foldl _ [] (by simp)
    have hperm := (stableSort_perm scoreLe
      ((collaborative ++ contentBased).foldl dedupeStep [])).map
        (fun r => r.product.id)
    have hsort : ((stableSort scoreLe
        ((collaborative ++ contentBased).foldl dedupeStep [])).map
        (fun r => r.product.id)).Nodup := hperm.nodup_iff.mpr hu
    rw [List.map_take]
    exact hsort.sublist (List.take_sublist limit _)
  · intro r hr
    have h1 := mem_take_sort hr
    rcases mem_dedupe_foldl _ [] r h1 with h2 | h2
    · simp at h2
    · exact List.mem_append.mp h2
  · intro r hr c hc
    have h1 := mem_take_sort hr
    have h2 := find_dedupe_foldl (collaborative ++ contentBased) [] r h1 (by simp)
    rw [List.nil_append, List.find?_append, hc] at h2
    simp only [Option.or] at h2
    exact (Option.some.inj h2).symm
  · have hpw := pairwise_take_sort scoreLe
      (descBy_total (fun r : RecItem => r.recommendationScore))
      (descBy_trans (fun r : RecItem => r.recommendationScore))
      ((collaborative ++ contentBased).foldl dedupeStep []) limit
    exact hpw.imp (fun h => of_decide_eq_true h)

/-- C3 witness: a product present in both inputs keeps the collaborative
score. -/
theorem C3_fusion_ranker_witness :
    (combineRecommendations w3Collab w3Content 10).length ≤ 10
    ∧ ((combineRecommendations w3Collab w3Content 10).map
        (fun r => r.product.id)).Nodup
    ∧ (∀ r ∈ combineRecommendations w3Collab w3Content 10,
        r ∈ w3Collab ∨ r ∈ w3Content)
    ∧ (∀ r ∈ combineRecommendations w3Collab w3Content 10, ∀ c : RecItem,
        w3Collab.find? (fun y => y.product.id == r.product.id) = some c →
        r = c)
    ∧ (combineRecommendations w3Collab w3Content 10).Pairwise
        (fun a b => b.recommendationScore ≤ a.recommendationScore) :=
  C3_fusion_ranker w3Collab w3Content 10

/-! ### Claim C6 -/

/-- C6: with no category signal the content scorer takes the cold-start
branch: active catalog products sorted by rating then sales descending,
truncated to the (positive) limit, and non-empty whenever some active
product exists; when at most `limit` products are active, exactly the
active products are returned. -/
theorem C6_content_cold_start (catalog : List Product)
    (userPreferences : Preferences) (limit : Nat)
    (h1 : userPreferences.categories = []) (h2 : 0 < limit)
    (h3 : ∃ p ∈ catalog, p.active = true) :
    ∃ ps, getContentBasedRecommendations catalog userPreferences limit
        = ContentResult.popular ps
      ∧ ps ≠ []
      ∧ ps.length ≤ limit
      ∧ (∀ p ∈ ps, p ∈ catalog ∧ p.active = true)
      ∧ ps.Pairwise (fun a b => b.averageRating < a.averageRating
          ∨ (b.averageRating = a.averageRating ∧ b.sales ≤ a.sales))
      ∧ ((catalog.filter (fun p => p.active)).length ≤ limit →
          List.Perm ps (catalog.filter (fun p => p.active))) := by
  have hemp : userPreferences.categories.isEmpty = true := by rw [h1]; rfl
  have hfne : catalog.filter (fun p => p.active) ≠ [] := by
    rcases h3 with ⟨p, hp, ha⟩
    exact List.ne_nil_of_mem (List.mem_filter.mpr ⟨hp, ha⟩)
  refine ⟨(stableSort popLe (catalog.filter (fun p => p.active))).take limit,
    ?_, ?_, ?_, ?_, ?_, ?_⟩
  · simp only [getContentBasedRecommendations, hemp, if_true]
  · have hsne : stableSort popLe (catalog.filter (fun p => p.active)) ≠ [] := by
      intro hh
      have hperm := stableSort_perm popLe (catalog.filter (fun p => p.active))
      rw [hh] at hperm
      exact hfne (hperm.symm.eq_nil)
    exact take_ne_nil_of_pos hsne h2
  · exact List.length_take_le limit _
  · intro p hp
    exact And.imp id (fun h => h) (List.mem_filter.mp (mem_take_sort hp))
  · have hpw := pairwise_take_sort popLe popLe_total popLe_trans
      (catalog.filter (fun p => p.active)) limit
    exact hpw.imp (fun h => of_decide_eq_true h)
  · intro hlen
    have hlen2 : (stableSort popLe (catalog.filter (fun p => p.active))).length
        ≤ limit := by
      rw [(stableSort_perm popLe _).length_eq]
      exact hlen
    rw [List.take_of_length_le hlen2]
    exact stableSort_perm popLe _

/-- C6 witness: one active product, empty preference snapshot. -/
theorem C6_content_cold_start_witness :
    wPrefsEmpty.categories = [] ∧ 0 < 5 ∧ (∃ p ∈ [wProdA], p.active = true)
    ∧ (∃ ps, getContentBasedRecommendations [wProdA] wPrefsEmpty 5
        = ContentResult.popular ps
      ∧ ps ≠ []
      ∧ ps.length ≤ 5
      ∧ (∀ p ∈ ps, p ∈ [wProdA] ∧ p.active = true)
      ∧ ps.Pairwise (fun a b => b.averageRating < a.averageRating
          ∨ (b.averageRating = a.averageRating ∧ b.sales ≤ a.sales))
      ∧ (([wProdA].filter (fun p => p.active)).length ≤ 5 →
          List.Perm ps ([wProdA].filter (fun p => p.active)))) :=
  ⟨rfl, by decide, by decide,
    C6_content_cold_start [wProdA] wPrefsEmpty 5 rfl (by decide) (by decide)⟩

/-! ### Claim C1 -/

theorem contentScore_eq_spec (userPreferences : Preferences) (p : Product) :
    contentScore userPreferences p = specContentScore userPreferences p := by
  simp only [contentScore, specContentScore, specCategoryBonus, specBrandBonus,
    specPriceBonus, specQualityBonus]
  ring

/-- C1: with a category signal the content scorer returns scored items:
each is an active catalog product matching a top-3 category or top-3
brand, its score is the claim's `categoryBonus + brandBonus + priceBonus +
qualityBonus`, the list is sorted by score descending and truncated to
`limit`; when at most `limit` candidates exist, every candidate appears. -/
theorem C1_content_scoring (catalog : List Product)
    (userPreferences : Preferences) (limit : Nat)
    (h : userPreferences.categories ≠ []) :
    ∃ items, getContentBasedRecommendations catalog userPreferences limit
        = ContentResult.scored items
      ∧ items.length ≤ limit
      ∧ (∀ r ∈ items, r.product ∈ catalog ∧ r.product.active = true
          ∧ (r.product.category ∈ userPreferences.categories.take 3
            ∨ r.product.brand ∈ userPreferences.brands.take 3)
          ∧ r.recommendationScore = specContentScore userPreferences r.product
          ∧ r.recommendationType = RecType.contentBased)
      ∧ items.Pairwise (fun a b => b.recommendationScore ≤ a.recommendationScore)
      ∧ ((catalog.filter (fun p => p.active
            && ((userPreferences.categories.take 3).contains p.category
              || (userPreferences.brands.take 3).contains p.brand))).length ≤ limit →
          List.Perm (items.map (fun r => r.product))
            (catalog.filter (fun p => p.active
              && ((userPreferences.categories.take 3).contains p.category
                || (userPreferences.brands.take 3).contains p.brand)))) := by
  have hemp : userPreferences.categories.isEmpty = false := by
    cases hc : userPreferences.categories with
    | nil => exact absurd hc h
    | cons a t => rfl
  refine ⟨(stableSort scoreLe
    ((catalog.filter (fun p => p.active
      && ((userPreferences.categories.take 3).contains p.category
        || (userPreferences.brands.take 3).contains p.brand))).map (fun p =>
      { product := p
        recommendationScore := contentScore userPreferences p
        recommendationType := RecType.contentBased : RecItem }))).take limit,
    ?_, ?_, ?_, ?_, ?_⟩
  · simp only [getContentBasedRecommendations, hemp, Bool.false_eq_true, if_false]
  · exact List.length_take_le limit _
  · intro r hr
    have h1 := mem_take_sort hr
    rcases List.mem_map.mp h1 with ⟨p, hpf, rfl⟩
    rcases List.mem_filter.mp hpf with ⟨hpc, hpred⟩
    simp only [Bool.and_eq_true, Bool.or_eq_true] at hpred
    rcases hpred with ⟨hact, hm⟩
    refine ⟨hpc, hact, ?_, contentScore_eq_spec userPreferences p, rfl⟩
    rcases hm with hm | hm
    · exact Or.inl (List.elem_iff.mp hm)
    · exact Or.inr (List.elem_iff.mp hm)
  · exact (pairwise_take_sort scoreLe
      (descBy_total (fun r : RecItem => r.recommendationScore))
      (descBy_trans (fun r : RecItem => r.recommendationScore)) _ limit).imp
      (fun h => of_decide_eq_true h)
  · intro hlen
    have hlm : ((catalog.filter (fun p => p.active
        && ((userPreferences.categories.take 3).contains p.category
          || (userPreferences.brands.take 3).contains p.brand))).map (fun p =>
        { product := p
          recommendationScore := contentScore userPreferences p
          recommendationType := RecType.contentBased : RecItem })).length ≤ limit := by
      rw [List.length_map]
      exact hlen
    have hlen2 : (stableSort scoreLe
        ((catalog.filter (fun p => p.active
          && ((userPreferences.categories.take 3).contains p.category
            || (userPreferences.brands.take 3).contains p.brand))).map (fun p =>
          { product := p
            recommendationScore := contentScore userPreferences p
            recommendationType := RecType.contentBased : RecItem }))).length ≤ limit := by
      rw [(stableSort_perm scoreLe _).length_eq]
      exact hlm
    rw [List.take_of_length_le hlen2]
    have hperm := (stableSort_perm scoreLe
      ((catalog.filter (fun p => p.active
        && ((userPreferences.categories.take 3).contains p.category
          || (userPreferences.brands.take 3).contains p.brand))).map (fun p =>
        { product := p
          recommendationScore := contentScore userPreferences p
          recommendationType := RecType.contentBased : RecItem }))).map
      (fun r => r.product)
    refine hperm.trans ?_
    have hid : ((fun r : RecItem => r.product) ∘ (fun p =>
        { product := p
          recommendationScore := contentScore userPreferences p
          recommendationType := RecType.contentBased : RecItem })) = id := rfl
    rw [List.map_map, hid, List.map_id]

/-- C1 witness: one candidate product with full category and brand match. -/
theorem C1_content_scoring_witness :
    wPrefs.categories ≠ []
    ∧ (∃ items, getContentBasedRecommendations [wProdA] wPrefs 5
        = ContentResult.scored items
      ∧ items.length ≤ 5
      ∧ (∀ r ∈ items, r.product ∈ [wProdA] ∧ r.product.active = true
          ∧ (r.product.category ∈ wPrefs.categories.take 3
            ∨ r.product.brand ∈ wPrefs.brands.take 3)
          ∧ r.recommendationScore = specContentScore wPrefs r.product
          ∧ r.recommendationType = RecType.contentBased)
      ∧ items.Pairwise (fun a b => b.recommendationScore ≤ a.recommendationScore)
      ∧ (([wProdA].filter (fun p => p.active
            && ((wPrefs.categories.take 3).contains p.category
              || (wPrefs.brands.take 3).contains p.brand))).length ≤ 5 →
          List.Perm (items.map (fun r => r.product))
            ([wProdA].filter (fun p => p.active
              && ((wPrefs.categories.take 3).contains p.category
                || (wPrefs.brands.take 3).contains p.brand))))) :=
  ⟨by decide, C1_content_scoring [wProdA] wPrefs 5 (by decide)⟩

/-! ### Claim C10 -/

/-- C10: when the collaborative body throws, the catch turns that scorer's
whole contribution into the empty list, and the fused pipeline result is
exactly the fusion of the content scorer's items alone — every fused item
coming from the content list. -/
theorem C10_scorer_error_contained (db : Db) (userId : UserId) (limit : Nat)
    (catalog : List Product) (userPreferences : Preferences)
    (items : List RecItem)
    (hb : collabBody db userId limit = Except.error ())
    (hc : getContentBasedRecommendations catalog userPreferences limit
      = ContentResult.scored items) :
    getCollaborativeRecommendations db userId limit = []
    ∧ combineRecommendations (getCollaborativeRecommendations db userId limit)
        items limit = combineRecommendations [] items limit
    ∧ (∀ r ∈ combineRecommendations [] items limit, r ∈ items) := by
  have h1 : getCollaborativeRecommendations db userId limit = [] := by
    unfold getCollaborativeRecommendations
    rw [hb]
  refine ⟨h1, by rw [h1], ?_⟩
  intro r hr
  unfold combineRecommendations at hr
  have h2 := mem_take_sort hr
  rcases mem_dedupe_foldl _ [] r h2 with h3 | h3
  · simp at h3
  · simpa using h3

/-- C10 witness: a malformed product reference in the target's order makes
the collaborative body throw; the pipeline still returns the content
scorer's item. -/
theorem C10_scorer_error_contained_witness :
    (collabBody w10Db 0 5 = Except.error ())
    ∧ (getContentBasedRecommendations [wProdA] wPrefs 5
        = ContentResult.scored [⟨wProdA, 43/2, RecType.contentBased⟩])
    ∧ (getCollaborativeRecommendations w10Db 0 5 = []
      ∧ combineRecommendations (getCollaborativeRecommendations w10Db 0 5)
          [⟨wProdA, 43/2, RecType.contentBased⟩] 5
        = combineRecommendations [] [⟨wProdA, 43/2, RecType.contentBased⟩] 5
      ∧ (∀ r ∈ combineRecommendations []
          [⟨wProdA, 43/2, RecType.contentBased⟩] 5,
          r ∈ [⟨wProdA, 43/2, RecType.contentBased⟩])) :=
  ⟨rfl,
    by norm_num [getContentBasedRecommendations, contentScore, wPrefs, wProdA,
      jsIndexOf, stableSort, stableInsert],
    C10_scorer_error_contained w10Db 0 5 [wProdA] wPrefs
      [⟨wProdA, 43/2, RecType.contentBased⟩] rfl
      (by norm_num [getContentBasedRecommendations, contentScore, wPrefs, wProdA,
        jsIndexOf, stableSort, stableInsert])⟩

/-! ### Claim C4 -/

theorem alookup_categoriesMap (userOrders : List PopOrder) (user : UserProfile)
    (k : String) :
    alookup (categoriesMap userOrders user) k
      = specCategoryWeight userOrders user k := by
  unfold categoriesMap specCategoryWeight
  rw [alookup_accumulate, alookup_accumulate, alookup_accumulate]
  have h0 : alookup ([] : List (String × ℚ)) k = 0 := rfl
  rw [h0, zero_add]
  congr 1
  congr 1
  · refine congrArg List.sum (List.map_congr_left ?_)
    intro i _
    cases hp : i.product <;> simp [purchaseCatContrib, hp]
  · refine congrArg List.sum (List.map_congr_left ?_)
    intro e _
    cases he : e <;> simp [cartCatContrib, he]

theorem alookup_brandsMap (userOrders : List PopOrder) (user : UserProfile)
    (k : String) :
    alookup (brandsMap userOrders user) k
      = specBrandWeight userOrders user k := by
  unfold brandsMap specBrandWeight
  rw [alookup_accumulate, alookup_accumulate, alookup_accumulate]
  have h0 : alookup ([] : List (String × ℚ)) k = 0 := rfl
  rw [h0, zero_add]
  congr 1
  congr 1
  · refine congrArg List.sum (List.map_congr_left ?_)
    intro i _
    cases hp : i.product <;> simp [purchaseBrandContrib, hp]
  · refine congrArg List.sum (List.map_congr_left ?_)
    intro e _
    cases he : e <;> simp [cartBrandContrib, he]

theorem nodup_categoriesMap (userOrders : List PopOrder) (user : UserProfile) :
    ((categoriesMap userOrders user).map Prod.fst).Nodup := by
  unfold categoriesMap
  exact nodup_fst_accumulate _ _ _
    (nodup_fst_accumulate _ _ _ (nodup_fst_accumulate _ _ _ (by simp)))

theorem nodup_brandsMap (userOrders : List PopOrder) (user : UserProfile) :
    ((brandsMap userOrders user).map Prod.fst).Nodup := by
  unfold brandsMap
  exact nodup_fst_accumulate _ _ _
    (nodup_fst_accumulate _ _ _ (nodup_fst_accumulate _ _ _ (by simp)))

theorem itemCount_eq_spec (userOrders : List PopOrder) :
    itemCount userOrders = specItemCount userOrders := by
  unfold itemCount specItemCount
  rw [sum_filterMap_getD]
  refine congrArg List.sum (List.map_congr_left ?_)
  intro i _
  cases hp : i.product <;> simp [hp]

theorem totalSpent_eq_spec (userOrders : List PopOrder) :
    totalSpent userOrders = specTotalSpent userOrders := by
  unfold totalSpent specTotalSpent
  rw [sum_filterMap_getD]
  refine congrArg List.sum (List.map_congr_left ?_)
  intro i _
  cases hp : i.product <;> simp [hp]

/-- C4: the preference extractor's category and brand rankings are in
descending order of the accumulated weights the claim describes (purchase
quantities, plus 0.5 per wishlist product, plus 0.3 per resolved cart
product); a name appears in a ranking exactly when some purchase, wishlist
or cart entry contributed to it; the average price is total spend over
total item count with an explicit zero fallback; and the purchase total is
the summed quantities. -/
theorem C4_preference_extraction (userId : UserId)
    (userOrders : List PopOrder) (user : UserProfile) :
    (getUserPreferences userId userOrders user).categories.Pairwise
      (fun a b => specCategoryWeight userOrders user b
        ≤ specCategoryWeight userOrders user a)
    ∧ (getUserPreferences userId userOrders user).brands.Pairwise
      (fun a b => specBrandWeight userOrders user b
        ≤ specBrandWeight userOrders user a)
    ∧ (∀ c : String, c ∈ (getUserPreferences userId userOrders user).categories ↔
        ((∃ i ∈ popItems userOrders, ∃ pr : Product,
            i.product = some pr ∧ pr.category = c)
          ∨ (∃ pr ∈ user.wishlist, pr.category = c)
          ∨ (∃ pr : Product, some pr ∈ user.cart ∧ pr.category = c)))
    ∧ (getUserPreferences userId userOrders user).priceRange.avg
        = (if specItemCount userOrders = 0 then 0
          else specTotalSpent userOrders / (specItemCount userOrders : ℚ))
    ∧ (getUserPreferences userId userOrders user).totalPurchases
        = specItemCount userOrders := by
  refine ⟨?_, ?_, ?_, ?_, ?_⟩
  · show ((stableSort weightLe (categoriesMap userOrders user)).map
      Prod.fst).Pairwise _
    rw [List.pairwise_map]
    refine (stableSort_pairwise weightLe
      (fun a b => descBy_total (fun x : String × ℚ => x.2) a b)
      (fun a b c h1 h2 => descBy_trans (fun x : String × ℚ => x.2) a b c h1 h2)
      (categoriesMap userOrders user)).imp_of_mem ?_
    intro a b ha hb hab
    have ha2 : a ∈ categoriesMap userOrders user :=
      (stableSort_perm weightLe _).mem_iff.mp ha
    have hb2 : b ∈ categoriesMap userOrders user :=
      (stableSort_perm weightLe _).mem_iff.mp hb
    obtain ⟨ka, wa⟩ := a
    obtain ⟨kb, wb⟩ := b
    have ea : wa = specCategoryWeight userOrders user ka := by
      rw [← alookup_of_mem _ ka wa ha2 (nodup_categoriesMap userOrders user)]
      exact alookup_categoriesMap userOrders user ka
    have eb : wb = specCategoryWeight userOrders user kb := by
      rw [← alookup_of_mem _ kb wb hb2 (nodup_categoriesMap userOrders user)]
      exact alookup_categoriesMap userOrders user kb
    have hle : wb ≤ wa := of_decide_eq_true hab
    simpa [ea, eb] using hle
  · show ((stableSort weightLe (brandsMap userOrders user)).map
      Prod.fst).Pairwise _
    rw [List.pairwise_map]
    refine (stableSort_pairwise weightLe
      (fun a b => descBy_total (fun x : String × ℚ => x.2) a b)
      (fun a b c h1 h2 => descBy_trans (fun x : String × ℚ => x.2) a b c h1 h2)
      (brandsMap userOrders user)).imp_of_mem ?_
    intro a b ha hb hab
    have ha2 : a ∈ brandsMap userOrders user :=
      (stableSort_perm weightLe _).mem_iff.mp ha
    have hb2 : b ∈ brandsMap userOrders user :=
      (stableSort_perm weightLe _).mem_iff.mp hb
    obtain ⟨ka, wa⟩ := a
    obtain ⟨kb, wb⟩ := b
    have ea : wa = specBrandWeight userOrders user ka := by
      rw [← alookup_of_mem _ ka wa ha2 (nodup_brandsMap userOrders user)]
      exact alookup_brandsMap userOrders user ka
    have eb : wb = specBrandWeight userOrders user kb := by
      rw [← alookup_of_mem _ kb wb hb2 (nodup_brandsMap userOrders user)]
      exact alookup_brandsMap userOrders user kb
    have hle : wb ≤ wa := of_decide_eq_true hab
    simpa [ea, eb] using hle
  · intro c
    show c ∈ (stableSort weightLe (categoriesMap userOrders user)).map
      Prod.fst ↔ _
    have hperm := (stableSort_perm weightLe
      (categoriesMap userOrders user)).map Prod.fst
    rw [hperm.mem_iff]
    unfold categoriesMap
    rw [mem_fst_accumulate, mem_fst_accumulate, mem_fst_accumulate]
    simp only [List.map_nil, List.not_mem_nil, false_or]
    constructor
    · rintro ((hm | hm) | hm)
      · rcases List.mem_map.mp hm with ⟨kw, hkw, rfl⟩
        rcases List.mem_filterMap.mp hkw with ⟨i, hi, hci⟩
        rcases Option.map_eq_some'.mp hci with ⟨pr, hpr, rfl⟩
        exact Or.inl ⟨i, hi, pr, hpr, rfl⟩
      · rcases List.mem_map.mp hm with ⟨kw, hkw, rfl⟩
        rcases List.mem_filterMap.mp hkw with ⟨p, hp, hcp⟩
        rcases Option.some.inj hcp with rfl
        exact Or.inr (Or.inl ⟨p, hp, rfl⟩)
      · rcases List.mem_map.mp hm with ⟨kw, hkw, rfl⟩
        rcases List.mem_filterMap.mp hkw with ⟨e, he, hce⟩
        rcases Option.map_eq_some'.mp hce with ⟨pr, hpr, rfl⟩
        subst hpr
        exact Or.inr (Or.inr ⟨pr, he, rfl⟩)
    · rintro (⟨i, hi, pr, hpr, rfl⟩ | ⟨p, hp, rfl⟩ | ⟨pr, hpr, rfl⟩)
      · refine Or.inl (Or.inl (List.mem_map.mpr
          ⟨(pr.category, (i.quantity : ℚ)), ?_, rfl⟩))
        exact List.mem_filterMap.mpr ⟨i, hi, by simp [purchaseCatContrib, hpr]⟩
      · refine Or.inl (Or.inr (List.mem_map.mpr
          ⟨(p.category, (1 : ℚ) / 2), ?_, rfl⟩))
        exact List.mem_filterMap.mpr ⟨p, hp, rfl⟩
      · refine Or.inr (List.mem_map.mpr
          ⟨(pr.category, (3 : ℚ) / 10), ?_, rfl⟩)
        exact List.mem_filterMap.mpr ⟨some pr, hpr, rfl⟩
  · show (if 0 < itemCount userOrders
        then totalSpent userOrders / (itemCount userOrders : ℚ) else 0) = _
    rw [itemCount_eq_spec, totalSpent_eq_spec]
    by_cases hz : specItemCount userOrders = 0
    · simp [hz]
    · simp [hz, Nat.pos_of_ne_zero hz]
  · show itemCount userOrders = _
    exact itemCount_eq_spec userOrders

/-- C4 witness: one paid order (quantity 2), one wishlist product, one
resolved cart entry. -/
theorem C4_preference_extraction_witness :
    (getUserPreferences 0 w4Orders w4User).categories.Pairwise
      (fun a b => specCategoryWeight w4Orders w4User b
        ≤ specCategoryWeight w4Orders w4User a)
    ∧ (getUserPreferences 0 w4Orders w4User).brands.Pairwise
      (fun a b => specBrandWeight w4Orders w4User b
        ≤ specBrandWeight w4Orders w4User a)
    ∧ (∀ c : String, c ∈ (getUserPreferences 0 w4Orders w4User).categories ↔
        ((∃ i ∈ popItems w4Orders, ∃ pr : Product,
            i.product = some pr ∧ pr.category = c)
          ∨ (∃ pr ∈ w4User.wishlist, pr.category = c)
          ∨ (∃ pr : Product, some pr ∈ w4User.cart ∧ pr.category = c)))
    ∧ (getUserPreferences 0 w4Orders w4User).priceRange.avg
        = (if specItemCount w4Orders = 0 then 0
          else specTotalSpent w4Orders / (specItemCount w4Orders : ℚ))
    ∧ (getUserPreferences 0 w4Orders w4User).totalPurchases
        = specItemCount w4Orders :=
  C4_preference_extraction 0 w4Orders w4User

/-! ### Claim C9 -/

theorem accumulate_filter_isSome {κ β δ : Type} [DecidableEq κ] [Add β]
    (contrib : δ → Option (κ × β)) (P : δ → Bool)
    (hP : ∀ d, P d = false → contrib d = none) (l : List δ)
    (m0 : List (κ × β)) :
    accumulate contrib (l.filter P) m0 = accumulate contrib l m0 := by
  induction l generalizing m0 with
  | nil => rfl
  | cons d t ih =>
    cases hd : P d with
    | true =>
      rw [List.filter_cons_of_pos hd]
      exact ih _
    | false =>
      rw [List.filter_cons_of_neg (by simp [hd])]
      have hstep : accumulate contrib (d :: t) m0 = accumulate contrib t m0 := by
        simp only [accumulate, List.foldl_cons, hP d hd]
      rw [hstep]
      exact ih m0

theorem filterMap_filter_isSome {δ β : Type} (f : δ → Option β)
    (P : δ → Bool) (hP : ∀ d, P d = false → f d = none) (l : List δ) :
    (l.filter P).filterMap f = l.filterMap f := by
  induction l with
  | nil => rfl
  | cons d t ih =>
    cases hd : P d with
    | true => rw [List.filter_cons_of_pos hd, List.filterMap_cons,
        List.filterMap_cons, ih]
    | false =>
      rw [List.filter_cons_of_neg (by simp [hd]), List.filterMap_cons,
        hP d hd, ih]

theorem popItems_dropUnresolved (userOrders : List PopOrder) :
    popItems (dropUnresolved userOrders)
      = (popItems userOrders).filter (fun i => i.product.isSome) := by
  unfold popItems dropUnresolved
  induction userOrders with
  | nil => rfl
  | cons o t ih => simp [List.filter_append, ih]

/-- C9 (amended): a missing product reference is skipped per-item only in
the preference extractor — dropping such line items changes none of the
category ranking, brand ranking, average price, or purchase count — while
in the collaborative scorer an error is caught per-scorer: any body error
empties that scorer's whole contribution (the request itself never
aborts). -/
theorem C9_per_item_amended :
    (∀ (userId : UserId) (userOrders : List PopOrder) (user : UserProfile),
      (getUserPreferences userId (dropUnresolved userOrders) user).categories
        = (getUserPreferences userId userOrders user).categories
      ∧ (getUserPreferences userId (dropUnresolved userOrders) user).brands
        = (getUserPreferences userId userOrders user).brands
      ∧ (getUserPreferences userId (dropUnresolved userOrders) user).priceRange.avg
        = (getUserPreferences userId userOrders user).priceRange.avg
      ∧ (getUserPreferences userId (dropUnresolved userOrders) user).totalPurchases
        = (getUserPreferences userId userOrders user).totalPurchases)
    ∧ (∀ (db : Db) (userId : UserId) (limit : Nat) (e : Unit),
        collabBody db userId limit = Except.error e →
        getCollaborativeRecommendations db userId limit = []) := by
  constructor
  · intro userId userOrders user
    have hitems := popItems_dropUnresolved userOrders
    have hsome : ∀ i : PopItem, i.product.isSome = false →
        purchaseCatContrib i = none := by
      intro i hi
      cases hp : i.product with
      | none => simp [purchaseCatContrib, hp]
      | some pr => rw [hp] at hi; simp at hi
    have hsomeb : ∀ i : PopItem, i.product.isSome = false →
        purchaseBrandContrib i = none := by
      intro i hi
      cases hp : i.product with
      | none => simp [purchaseBrandContrib, hp]
      | some pr => rw [hp] at hi; simp at hi
    have hcat : categoriesMap (dropUnresolved userOrders) user
        = categoriesMap userOrders user := by
      unfold categoriesMap
      rw [hitems, accumulate_filter_isSome purchaseCatContrib _ hsome]
    have hbrand : brandsMap (dropUnresolved userOrders) user
        = brandsMap userOrders user := by
      unfold brandsMap
      rw [hitems, accumulate_filter_isSome purchaseBrandContrib _ hsomeb]
    have hcount : itemCount (dropUnresolved userOrders) = itemCount userOrders := by
      unfold itemCount
      rw [hitems, filterMap_filter_isSome _ _ (fun i hi => by
        cases hp : i.product with
        | none => simp [hp]
        | some pr => rw [hp] at hi; simp at hi)]
    have hspent : totalSpent (dropUnresolved userOrders) = totalSpent userOrders := by
      unfold totalSpent
      rw [hitems, filterMap_filter_isSome _ _ (fun i hi => by
        cases hp : i.product with
        | none => simp [hp]
        | some pr => rw [hp] at hi; simp at hi)]
    refine ⟨?_, ?_, ?_, ?_⟩
    · simp only [getUserPreferences]
      rw [hcat]
    · simp only [getUserPreferences]
      rw [hbrand]
    · simp only [getUserPreferences]
      rw [hcount, hspent]
    · simp only [getUserPreferences]
      rw [hcount]
  · intro db userId limit e h
    unfold getCollaborativeRecommendations
    rw [h]

/-- C9 counterexample: with a single malformed product reference in the
target's order the collaborative scorer returns nothing at all, although
the same data with the offending item removed yields a recommendation —
so the offending item is NOT skipped per-product and the rest of the
scorer's results are lost. -/
theorem C9_per_item_counterexample :
    getCollaborativeRecommendations cex9DbBad 0 10 = []
    ∧ getCollaborativeRecommendations cex9DbGood 0 10
        = [⟨wProdC, 1, RecType.collaborative⟩] :=
  ⟨by decide, by decide⟩

/-- C9 witness: the amended statement at a concrete order history and a
concrete throwing database. -/
theorem C9_per_item_amended_witness :
    ((getUserPreferences 0 (dropUnresolved w9Orders) w9User).categories
        = (getUserPreferences 0 w9Orders w9User).categories
      ∧ (getUserPreferences 0 (dropUnresolved w9Orders) w9User).brands
        = (getUserPreferences 0 w9Orders w9User).brands
      ∧ (getUserPreferences 0 (dropUnresolved w9Orders) w9User).priceRange.avg
        = (getUserPreferences 0 w9Orders w9User).priceRange.avg
      ∧ (getUserPreferences 0 (dropUnresolved w9Orders) w9User).totalPurchases
        = (getUserPreferences 0 w9Orders w9User).totalPurchases)
    ∧ (collabBody cex9DbBad 0 7 = Except.error ()
      ∧ getCollaborativeRecommendations cex9DbBad 0 7 = []) :=
  ⟨C9_per_item_amended.1 0 w9Orders w9User,
    rfl, C9_per_item_amended.2 cex9DbBad 0 7 () rfl⟩

/-! ### Claim C2 -/

theorem similarUsers_count (db : Db) (userId : UserId) (ids : List ProductId)
    (un : UserId × Nat) (h : un ∈ similarUsers db userId ids) :
    un.1 ≠ userId ∧
    un.2 = (db.orders.filter (fun o => o.isPaid && matchesAny ids o)).countP
      (fun o => o.user == un.1) := by
  unfold similarUsers at h
  have h1 := mem_take_sort h
  rcases List.mem_filter.mp h1 with ⟨h2, h3⟩
  obtain ⟨u, c⟩ := un
  refine ⟨by simpa using h3, ?_⟩
  have hn := nodup_fst_accumulate (fun (o : RawOrder) => some (o.user, 1))
    (db.orders.filter (fun o => o.isPaid && matchesAny ids o)) [] (by simp)
  have hl := alookup_of_mem _ u c h2 hn
  rw [alookup_accumulate] at hl
  have h0 : alookup ([] : List (UserId × Nat)) u = 0 := rfl
  rw [h0, zero_add] at hl
  have he : (fun (o : RawOrder) =>
      match (fun (o : RawOrder) => some (o.user, 1)) o with
      | some kw => if kw.1 = u then kw.2 else 0
      | none => 0) = fun (o : RawOrder) => if o.user = u then (1 : ℕ) else 0 := rfl
  rw [he, sum_map_ite_one] at hl
  rw [← hl]
  have hf : (fun (o : RawOrder) => o.user == u)
      = fun (o : RawOrder) => decide (o.user = u) :=
    funext fun o => beq_eq_decide o.user u
  rw [hf]

theorem nodup_productGroups_keys (db : Db) (userId : UserId)
    (ids : List ProductId) :
    ((productGroups db userId ids).map Prod.fst).Nodup := by
  unfold productGroups
  exact nodup_fst_accumulate _ _ _ (by simp)

theorem nodup_topGroups_keys (db : Db) (userId : UserId)
    (ids : List ProductId) (limit : Nat) :
    ((topGroups db userId ids limit).map Prod.fst).Nodup := by
  unfold topGroups
  rw [List.map_take]
  refine List.Nodup.sublist (List.take_sublist limit _) ?_
  exact ((stableSort_perm groupLe (productGroups db userId ids)).map
    Prod.fst).nodup_iff.mpr (nodup_productGroups_keys db userId ids)

theorem topGroups_count (db : Db) (userId : UserId) (ids : List ProductId)
    (limit : Nat) (g : Option ProductId × (Nat × ℚ))
    (h : g ∈ topGroups db userId ids limit) :
    g.2.1 = ((neighborOrders db userId ids).flatMap
      (fun o => o.orderItems)).countP (fun i => i.product == g.1) := by
  unfold topGroups at h
  have h1 : g ∈ productGroups db userId ids := mem_take_sort h
  obtain ⟨k, w⟩ := g
  unfold productGroups at h1
  have hn := nodup_fst_accumulate
    (fun (i : RawItem) => some (i.product, (1, i.price)))
    ((neighborOrders db userId ids).flatMap (fun o => o.orderItems)) [] (by simp)
  have hl := alookup_of_mem _ k w h1 hn
  rw [alookup_accumulate] at hl
  have h0 : alookup ([] : List (Option ProductId × (Nat × ℚ))) k = 0 := rfl
  rw [h0, zero_add] at hl
  have he : (fun (i : RawItem) =>
      match (fun (i : RawItem) => some (i.product, (1, i.price))) i with
      | some kw => if kw.1 = k then kw.2 else 0
      | none => 0)
      = fun (i : RawItem) =>
        if i.product = k then ((1 : ℕ), i.price) else 0 := rfl
  rw [he] at hl
  have hfst := congrArg Prod.fst hl
  rw [fst_list_sum, List.map_map] at hfst
  have he2 : (Prod.fst ∘ (fun (i : RawItem) =>
      if i.product = k then ((1 : ℕ), i.price) else 0))
      = fun (i : RawItem) => if i.product = k then (1 : ℕ) else 0 := by
    funext i
    by_cases hp : i.product = k <;> simp [hp]
  rw [he2, sum_map_ite_one] at hfst
  rw [← hfst]
  have hf : (fun (i : RawItem) => i.product == k)
      = fun (i : RawItem) => decide (i.product = k) :=
    funext fun i => beq_eq_decide i.product k
  rw [hf]

/-- C2 (amended): neighbors are the top 20 OTHER users ranked by how many
of their paid ORDERS contain at least one of the target's purchased
products (not by distinct shared products); products are then aggregated
only over neighbor paid orders containing NONE of the target's purchases
(orders are excluded wholesale by the `$nin` array match), scored by the
number of such unwound line items referencing them, sorted descending,
truncated to N, and resolved to active catalog products, each returned
item carrying its line-item count as score and lying outside the target's
purchase set. -/
theorem C2_collaborative_amended (db : Db) (userId : UserId) (limit : Nat)
    (ids : List ProductId)
    (hids : purchasedIds db userId = Except.ok ids) (hne : ids ≠ []) :
    collabAmendedSpec db userId limit ids := by
  have hemp : ids.isEmpty = false := by
    cases ids with
    | nil => exact absurd rfl hne
    | cons a t => rfl
  have hbody : collabBody db userId limit = Except.ok
      ((db.catalog.filter (fun p =>
        ((topGroups db userId ids limit).map Prod.fst).contains (some p.id)
          && p.active)).map (fun p =>
        { product := p
          recommendationScore := (((topGroups db userId ids limit).find?
            (fun g => g.1 == some p.id)).map (fun g => (g.2.1 : ℚ))).getD 0
          recommendationType := RecType.collaborative })) := by
    unfold collabBody
    rw [hids]
    simp [hemp]
  have hrecs : getCollaborativeRecommendations db userId limit
      = (db.catalog.filter (fun p =>
        ((topGroups db userId ids limit).map Prod.fst).contains (some p.id)
          && p.active)).map (fun p =>
        { product := p
          recommendationScore := (((topGroups db userId ids limit).find?
            (fun g => g.1 == some p.id)).map (fun g => (g.2.1 : ℚ))).getD 0
          recommendationType := RecType.collaborative }) := by
    unfold getCollaborativeRecommendations
    rw [hbody]
  refine ⟨?_, ?_, ?_, ?_, ?_, ?_, ?_⟩
  · unfold similarUsers
    exact List.length_take_le 20 _
  · intro un hun
    exact similarUsers_count db userId ids un hun
  · unfold similarUsers
    exact ((pairwise_take_sort countLe
      (descBy_total (fun x : UserId × Nat => x.2))
      (descBy_trans (fun x : UserId × Nat => x.2)) _ 20).imp
      (fun h => of_decide_eq_true h))
  · unfold topGroups
    exact List.length_take_le limit _
  · unfold topGroups
    exact ((pairwise_take_sort groupLe
      (descBy_total (fun x : Option ProductId × (Nat × ℚ) => x.2.1))
      (descBy_trans (fun x : Option ProductId × (Nat × ℚ) => x.2.1)) _
      limit).imp (fun h => of_decide_eq_true h))
  · intro g hg
    exact topGroups_count db userId ids limit g hg
  · intro r hr
    rw [hrecs] at hr
    rcases List.mem_map.mp hr with ⟨p, hpf, rfl⟩
    rcases List.mem_filter.mp hpf with ⟨hpc, hpred⟩
    simp only [Bool.and_eq_true] at hpred
    rcases hpred with ⟨hcont, hact⟩
    have hkey : some p.id ∈ (topGroups db userId ids limit).map Prod.fst :=
      List.elem_iff.mp hcont
    rcases List.mem_map.mp hkey with ⟨g, hg, hg1⟩
    obtain ⟨k, w⟩ := g
    have hg2 : k = some p.id := hg1
    subst hg2
    have hpg : ((some p.id : Option ProductId), w) ∈ productGroups db userId ids := by
      unfold topGroups at hg
      exact mem_take_sort hg
    have hnotin : p.id ∉ ids := by
      have hkmem : (some p.id : Option ProductId) ∈
          (accumulate (fun (i : RawItem) => some (i.product, (1, i.price)))
            ((neighborOrders db userId ids).flatMap (fun o => o.orderItems))
            []).map Prod.fst := by
        unfold productGroups at hpg
        exact List.mem_map.mpr ⟨(some p.id, w), hpg, rfl⟩
      rw [mem_fst_accumulate] at hkmem
      rcases hkmem with hkmem | hkmem
      · simp at hkmem
      · rw [show (fun (i : RawItem) => some (i.product, ((1 : ℕ), i.price)))
            = some ∘ (fun (i : RawItem) => (i.product, ((1 : ℕ), i.price)))
            from rfl, List.filterMap_eq_map, List.map_map] at hkmem
        rw [show (Prod.fst ∘ fun (i : RawItem) => (i.product, ((1 : ℕ), i.price)))
            = (fun (i : RawItem) => i.product) from rfl] at hkmem
        rcases List.mem_map.mp hkmem with ⟨i, hi, hipid⟩
        rcases List.mem_flatMap.mp hi with ⟨o, ho, hio⟩
        unfold neighborOrders at ho
        rcases List.mem_filter.mp ho with ⟨hodb, hpredo⟩
        simp only [Bool.and_eq_true] at hpredo
        rcases hpredo with ⟨⟨hsu, hpaid⟩, hnin⟩
        have hma : matchesAny ids o = false := by
          simpa using hnin
        unfold matchesAny at hma
        rw [List.any_eq_false] at hma
        have hfa := hma i hio
        rw [hipid] at hfa
        simp only at hfa
        intro hmem
        exact hfa (List.elem_iff.mpr hmem)
    have hfind := find_key_of_mem_nodup (topGroups db userId ids limit)
      (some p.id) w hg (nodup_topGroups_keys db userId ids limit)
    refine ⟨hpc, hact, hnotin, rfl, ?_⟩
    show (((topGroups db userId ids limit).find?
      (fun g => g.1 == some p.id)).map (fun g => (g.2.1 : ℚ))).getD 0 = _
    rw [hfind]
    exact congrArg (fun n : ℕ => (n : ℚ))
      (topGroups_count db userId ids limit (some p.id, w) hg)

/-- C2 counterexample: the target bought product 1; the only other user
has a single paid order containing products 1 and 3.  Under the claim's
reading product 3 is recommended with score 1; the code's `$nin` match
drops that whole order, so the scorer returns nothing. -/
theorem C2_collaborative_counterexample :
    getCollaborativeRecommendations cex2Db 0 10 = []
    ∧ claimCollabRecs cex2Db 0 10 = [⟨wProdC, 1, RecType.collaborative⟩] :=
  ⟨by decide, by decide⟩

/-- C2 witness: the amended statement at a concrete database where the
neighbor has a clean second order. -/
theorem C2_collaborative_amended_witness :
    purchasedIds w2Db 0 = Except.ok [1] ∧ ([1] : List ProductId) ≠ []
    ∧ collabAmendedSpec w2Db 0 5 [1] :=
  ⟨rfl, by decide, C2_collaborative_amended w2Db 0 5 [1] rfl (by decide)⟩

end Shop
